import Mathlib

set_option maxRecDepth 10000

/-!
Shallow embedding of the Gear-Genix equipment booking system and proofs of its
specified properties.

Embedded source files:
* `src/core/booking_engine.py` — the allocation engine (availability checks,
  booking creation, cancellation, return-to-pool, identifier assignment);
* `src/db/models.py` — the `Equipment` and `Booking` rows of the ledger;
* `src/agent/tool_executor.py` — the tool-name dispatch layer.

The database session is modelled by explicit state passing over a `Ledger`
value; each engine entry point maps a ledger and its string arguments to the
resulting ledger and the human-readable message the Python function returns.
SQLAlchemy's `scalar_one_or_none` (which raises `MultipleResultsFound` on two
or more rows, caught by each function's `except` block) is modelled by
`scalarOneOrNone` returning `none` for the exceptional case.
-/

/-- Decimal value of an ASCII digit character, `none` otherwise (the digit
test Python `int` applies to each character). -/
def charDigit? (c : Char) : Option Nat :=
  if '0' ≤ c ∧ c ≤ '9' then some (c.toNat - '0'.toNat) else none

/-- Character for a decimal digit (inverse of `charDigit?` below 10). -/
def digitToChar : Nat → Char
  | 0 => '0'
  | 1 => '1'
  | 2 => '2'
  | 3 => '3'
  | 4 => '4'
  | 5 => '5'
  | 6 => '6'
  | 7 => '7'
  | 8 => '8'
  | _ => '9'

/-- Split a character list on a separator character (Python `str.split`
with a one-character separator, as used on the date and time fields). -/
def splitOnChar (sep : Char) : List Char → List (List Char)
  | [] => [[]]
  | c :: cs =>
    let r := splitOnChar sep cs
    if c = sep then [] :: r
    else
      match r with
      | [] => [[c]]
      | g :: gs => (c :: g) :: gs

/-- ASCII lower-casing of one character (model of `str.lower` on the ASCII
names this system uses). -/
def charToLower (c : Char) : Char :=
  if 'A' ≤ c ∧ c ≤ 'Z' then Char.ofNat (c.toNat + 32) else c

/-- ASCII upper-casing of one character (model of `str.upper`). -/
def charToUpper (c : Char) : Char :=
  if 'a' ≤ c ∧ c ≤ 'z' then Char.ofNat (c.toNat - 32) else c

/-- Model of Python `str.lower` over ASCII strings. -/
def strToLower (s : String) : String := String.mk (s.data.map charToLower)

/-- Model of Python `str.upper` over ASCII strings. -/
def strToUpper (s : String) : String := String.mk (s.data.map charToUpper)

/-- Little-endian base-10 digits with explicit fuel, so that the kernel can
evaluate it; with fuel at least `n` it agrees with `Nat.digits 10 n`. -/
def toDigitsRev (fuel n : Nat) : List Nat :=
  match fuel with
  | 0 => []
  | fuel + 1 => if n = 0 then [] else n % 10 :: toDigitsRev fuel (n / 10)

/-- Little-endian base-10 digit list of a natural number. -/
def natDigits (n : Nat) : List Nat := toDigitsRev n n

/-- Accumulating decimal parser; fails on the first non-digit character. -/
def parseDigitsAux : Nat → List Char → Option Nat
  | acc, [] => some acc
  | acc, c :: cs =>
    match charDigit? c with
    | some d => parseDigitsAux (acc * 10 + d) cs
    | none => none

/-- Decimal parser over a character list; the empty list fails (Python
`int("")` raises `ValueError`). -/
def parseDigits? : List Char → Option Nat
  | [] => none
  | c :: cs => parseDigitsAux 0 (c :: cs)

/-- Model of Python `int(s)` for plain decimal strings with an optional
leading sign (exotic accepted forms such as surrounding whitespace or
underscore separators are not modelled). -/
def pyInt? (s : String) : Option Int :=
  match s.data with
  | [] => none
  | c :: rest =>
    if c = '-' then (parseDigits? rest).map (fun n => -(n : Int))
    else if c = '+' then (parseDigits? rest).map (fun n => (n : Int))
    else (parseDigits? (c :: rest)).map (fun n => (n : Int))

/-- Decimal rendering of a natural number (Python `str` of a non-negative
int). -/
def renderNat (n : Nat) : String :=
  if n = 0 then "0" else String.mk (((natDigits n).map digitToChar).reverse)

/-- Rendering of a Python int, signs included. -/
def intRepr (i : Int) : String :=
  if i < 0 then "-" ++ renderNat i.natAbs else renderNat i.toNat

/-- Left-pad a string with zeros to a minimum width. -/
def leftPad0 (w : Nat) (s : String) : String :=
  if s.length < w then String.mk (List.replicate (w - s.length) '0') ++ s else s

/-- Model of Python `f"{i:03d}"` (minimum width three, sign counted in the
width). -/
def format03d (i : Int) : String :=
  if i < 0 then "-" ++ leftPad0 2 (renderNat i.natAbs) else leftPad0 3 (renderNat i.toNat)

/-- Full English month name, as produced by strftime `%B`. -/
def monthName : Nat → String
  | 1 => "January"
  | 2 => "February"
  | 3 => "March"
  | 4 => "April"
  | 5 => "May"
  | 6 => "June"
  | 7 => "July"
  | 8 => "August"
  | 9 => "September"
  | 10 => "October"
  | 11 => "November"
  | 12 => "December"
  | _ => ""

/-- Abbreviated English month name, as produced by strftime `%b`. -/
def monthAbbr : Nat → String
  | 1 => "Jan"
  | 2 => "Feb"
  | 3 => "Mar"
  | 4 => "Apr"
  | 5 => "May"
  | 6 => "Jun"
  | 7 => "Jul"
  | 8 => "Aug"
  | 9 => "Sep"
  | 10 => "Oct"
  | 11 => "Nov"
  | 12 => "Dec"
  | _ => ""

/-- Gregorian leap-year test used by `datetime`'s day-of-month validation. -/
def isLeap (y : Nat) : Bool :=
  (y % 4 == 0 && y % 100 != 0) || y % 400 == 0

/-- Number of days in a month, for `datetime`'s constructor validation. -/
def daysInMonth (y m : Nat) : Nat :=
  if m == 2 then (if isLeap y then 29 else 28)
  else if m == 4 || m == 6 || m == 9 || m == 11 then 30
  else 31

/-- Parse a one- or two-digit decimal field whose value must lie in
`[lo, hi]` (the strptime field patterns for `%m`, `%d`, `%H`, `%M`). -/
def parse2? (lo hi : Nat) (l : List Char) : Option Nat :=
  match l with
  | [a] =>
    match charDigit? a with
    | some d => if lo ≤ d ∧ d ≤ hi then some d else none
    | none => none
  | [a, b] =>
    match charDigit? a, charDigit? b with
    | some d1, some d2 =>
      let n := d1 * 10 + d2
      if lo ≤ n ∧ n ≤ hi then some n else none
    | _, _ => none
  | _ => none

/-- Parse a four-digit year (strptime `%Y`). -/
def parseYear? (l : List Char) : Option Nat :=
  match l with
  | [a, b, c, d] =>
    match charDigit? a, charDigit? b, charDigit? c, charDigit? d with
    | some d1, some d2, some d3, some d4 =>
      some (((d1 * 10 + d2) * 10 + d3) * 10 + d4)
    | _, _, _, _ => none
  | _ => none

/-- Parse a `YYYY-MM-DD` date, rejecting year zero and days past the end of
the month as `datetime.strptime` does. -/
def parseDate? (s : String) : Option (Nat × Nat × Nat) :=
  match splitOnChar '-' s.data with
  | [ys, ms, ds] =>
    match parseYear? ys, parse2? 1 12 ms, parse2? 1 31 ds with
    | some y, some m, some d =>
      if y = 0 then none
      else if d ≤ daysInMonth y m then some (y, m, d) else none
    | _, _, _ => none
  | _ => none

/-- Parse a 24-hour `HH:MM` time. -/
def parseTime? (s : String) : Option (Nat × Nat) :=
  match splitOnChar ':' s.data with
  | [hs, ms] =>
    match parse2? 0 23 hs, parse2? 0 59 ms with
    | some h, some m => some (h, m)
    | _, _ => none
  | _ => none

/-- Naive datetime value as built by `_parse_slot`. -/
structure DateTime where
  year : Nat
  month : Nat
  day : Nat
  hour : Nat
  minute : Nat
deriving DecidableEq

/-- Order-embedding of a datetime into the naturals: Python datetimes
compare lexicographically by field, and with the validated field bounds
(month ≤ 12, day ≤ 31, hour < 24, minute < 60) this key preserves that
order. -/
def DateTime.key (dt : DateTime) : Nat :=
  (((dt.year * 12 + (dt.month - 1)) * 31 + (dt.day - 1)) * 24 + dt.hour) * 60 + dt.minute

/-- Model of `_parse_slot` (booking_engine.py lines 29-38): both slot
endpoints are built from the single date argument; a `ValueError` from
`datetime.strptime` becomes `none`. -/
def parse_slot (date start_time end_time : String) : Option (DateTime × DateTime) :=
  match parseDate? date, parseTime? start_time, parseTime? end_time with
  | some (y, m, d), some (h1, mi1), some (h2, mi2) =>
    some ({ year := y, month := m, day := d, hour := h1, minute := mi1 },
          { year := y, month := m, day := d, hour := h2, minute := mi2 })
  | _, _, _ => none

/-- Model of `_fmt_time` (booking_engine.py line 41): strftime
`"%I:%M %p"` with the leading zeros of the padded 12-hour field stripped. -/
def fmt_time (dt : DateTime) : String :=
  let h12 := if dt.hour % 12 = 0 then 12 else dt.hour % 12
  renderNat h12 ++ ":" ++ leftPad0 2 (renderNat dt.minute) ++ " " ++
    (if dt.hour < 12 then "AM" else "PM")

/-- Model of `_fmt_date` (booking_engine.py line 46): strftime `"%-d %B %Y"`. -/
def fmt_date (dt : DateTime) : String :=
  renderNat dt.day ++ " " ++ monthName dt.month ++ " " ++ renderNat dt.year

/-- Equipment row (db/models.py, class `Equipment`). -/
structure Equipment where
  id : Nat
  name : String
  total_quantity : Int
  available_quantity : Int
  condition : String
deriving DecidableEq

/-- Booking row (db/models.py, class `Booking`). -/
structure Booking where
  booking_id : String
  equipment_id : Nat
  club_name : String
  booked_by : String
  telegram_username : String
  start_time : DateTime
  end_time : DateTime
  status : String
deriving DecidableEq

/-- The persistent state the engine reads and writes through its session. -/
structure Ledger where
  equipment : List Equipment
  bookings : List Booking
deriving DecidableEq

/-- Model of SQLAlchemy `scalar_one_or_none`: `some none` for no row,
`some (some a)` for exactly one, and `none` for the `MultipleResultsFound`
exception that the engine's `except` blocks turn into an internal-error
reply. -/
def scalarOneOrNone : List α → Option (Option α)
  | [] => some none
  | [a] => some (some a)
  | _ => none

/-- Apply `f` to every element satisfying `p` (the ORM mutation of the rows
a query matched). -/
def updateWhere (p : α → Bool) (f : α → α) : List α → List α
  | [] => []
  | a :: l => (if p a then f a else a) :: updateWhere p f l

/-- Case-insensitive equipment-name match,
`func.lower(Equipment.name) == equipment_name.lower()`. -/
def nameMatches (target : String) (e : Equipment) : Bool :=
  strToLower e.name == strToLower target

/-- The rows returned by the equipment-by-name query. -/
def findEquipment (st : Ledger) (equipment_name : String) : List Equipment :=
  st.equipment.filter (nameMatches equipment_name)

/-- Case-insensitive booking-identifier match,
`func.upper(Booking.booking_id) == booking_id.upper()`. -/
def bookingIdMatches (target : String) (b : Booking) : Bool :=
  strToUpper b.booking_id == strToUpper target

/-- The half-open overlap filter of the conflict queries: same equipment,
status `active`, `start_time < end_dt` and `end_time > start_dt`. -/
def overlapsB (eqid : Nat) (start_dt end_dt : DateTime) (b : Booking) : Bool :=
  b.equipment_id == eqid && b.status == "active" &&
    decide (b.start_time.key < end_dt.key) && decide (b.end_time.key > start_dt.key)

/-- The rows returned by the conflict query of `check_availability` and
`make_booking`. -/
def activeConflicts (st : Ledger) (eqid : Nat) (start_dt end_dt : DateTime) : List Booking :=
  st.bookings.filter (overlapsB eqid start_dt end_dt)

/-- Insert into a list sorted by `le`, keeping existing order on ties. -/
def insertSorted (le : α → α → Bool) (a : α) : List α → List α
  | [] => [a]
  | b :: l => if le a b then a :: b :: l else b :: insertSorted le a l

/-- Insertion sort, modelling the SQL `ORDER BY` of the read queries. -/
def sortWith (le : α → α → Bool) : List α → List α
  | [] => []
  | a :: l => insertSorted le a (sortWith le l)

/-- Ordering key of `ORDER BY Booking.start_time ASC`. -/
def byStartLe (a b : Booking) : Bool :=
  decide (a.start_time.key ≤ b.start_time.key)

/-- Ordering key of `ORDER BY Equipment.name ASC`. -/
def byNameLe (a b : Equipment) : Bool :=
  decide (a.name ≤ b.name)

/-- Model of Python `max(conflicts, key=lambda b: b.end_time)` over a
nonempty list: the first element attaining the maximal end time. -/
def maxByEnd (c : Booking) (l : List Booking) : Booking :=
  l.foldl (fun acc b => if acc.end_time.key < b.end_time.key then b else acc) c

/-- Reply for a slot whose interval is empty or reversed. -/
def endAfterStartMsg : String :=
  "End time must be after start time. Please check your time slot."

/-- Reply for an unresolvable equipment name. -/
def notFoundEquipmentMsg (equipment_name : String) : String :=
  "Equipment '" ++ equipment_name ++ "' not found. " ++
    "Use list_equipment to see available options."

/-- Reply when every unit of the equipment is checked out. -/
def allUnitsMsg (name : String) : String :=
  "❌ All units of " ++ name ++ " are currently checked out."

/-- Reply for a `ValueError` out of `_parse_slot`; the Python text carries
the exception detail, modelled here by the fixed strptime mismatch phrase. -/
def invalidDateTimeMsg : String :=
  "Invalid date or time format: time data does not match format '%Y-%m-%d %H:%M'"

/-- Message of SQLAlchemy's `MultipleResultsFound` exception. -/
def multipleRowsDetail : String :=
  "Multiple rows were found when one or none was required"

/-- Internal-error reply of `check_availability`. -/
def checkInternalErrorMsg : String :=
  "Failed to check availability due to an internal error: " ++ multipleRowsDetail

/-- Internal-error reply of `make_booking`. -/
def makeInternalErrorMsg : String :=
  "Failed to create booking due to an internal error: " ++ multipleRowsDetail

/-- Internal-error reply of `cancel_booking`. -/
def cancelInternalErrorMsg : String :=
  "Failed to cancel booking due to an internal error: " ++ multipleRowsDetail

/-- Internal-error reply of `return_equipment`. -/
def returnInternalErrorMsg : String :=
  "Failed to mark equipment as returned due to an internal error: " ++ multipleRowsDetail

/-- Availability confirmation of `check_availability`. -/
def availableMsg (name : String) (start_dt end_dt : DateTime) : String :=
  "✅ " ++ name ++ " is available on " ++ fmt_date start_dt ++
    " from " ++ fmt_time start_dt ++ "–" ++ fmt_time end_dt ++ "."

/-- Unavailability reply of `check_availability`, naming the first conflict
of the start-ordered list and the conflict with the latest end time. -/
def unavailableMsg (name : String) (conflict last_conflict : Booking) : String :=
  "❌ " ++ name ++ " is booked from " ++ fmt_time conflict.start_time ++
    " to " ++ fmt_time conflict.end_time ++ " by " ++ conflict.club_name ++
    ". Next available after " ++ fmt_time last_conflict.end_time ++ "."

/-- Conflict reply of `make_booking`. -/
def alreadyBookedMsg (name : String) (conflict : Booking) : String :=
  "❌ " ++ name ++ " is already booked from " ++ fmt_time conflict.start_time ++
    " to " ++ fmt_time conflict.end_time ++ " by " ++ conflict.club_name ++
    ". Please choose a different time slot."

/-- Booking confirmation of `make_booking`. -/
def confirmationMsg (eq_name club_name : String) (start_dt end_dt : DateTime)
    (booking_id booked_by telegram_username : String) : String :=
  "✅ Booking Confirmed!\n" ++
    "─────────────────────\n" ++
    "Equipment : " ++ eq_name ++ "\n" ++
    "Club      : " ++ club_name ++ "\n" ++
    "Date      : " ++ fmt_date start_dt ++ "\n" ++
    "Time      : " ++ fmt_time start_dt ++ " – " ++ fmt_time end_dt ++ "\n" ++
    "Booking ID: " ++ booking_id ++ "\n" ++
    "Contact   : " ++ booked_by ++ " (" ++ telegram_username ++ ")\n" ++
    "─────────────────────\n" ++
    "Save your Booking ID — you will need it to cancel or return."

/-- Model of `check_availability` (booking_engine.py lines 78-139). -/
def check_availability (st : Ledger)
    (equipment_name date start_time end_time : String) : String :=
  match parse_slot date start_time end_time with
  | none => invalidDateTimeMsg
  | some (start_dt, end_dt) =>
    if end_dt.key ≤ start_dt.key then endAfterStartMsg
    else
      match scalarOneOrNone (findEquipment st equipment_name) with
      | none => checkInternalErrorMsg
      | some none => notFoundEquipmentMsg equipment_name
      | some (some equipment) =>
        let conflicts := sortWith byStartLe (activeConflicts st equipment.id start_dt end_dt)
        if equipment.available_quantity ≤ 0 ∧ conflicts.isEmpty then
          allUnitsMsg equipment.name
        else
          match conflicts with
          | [] => availableMsg equipment.name start_dt end_dt
          | conflict :: rest =>
            unavailableMsg equipment.name conflict (maxByEnd conflict rest)

/-- Parsed numeric suffix of an identifier, `int(bid[1:])`: the first
character is stripped whatever it is. -/
def parseSuffix (bid : String) : Option Int :=
  pyInt? (String.mk bid.data.tail)

/-- One step of `_generate_booking_id`'s running maximum. -/
def maxStep (m : Int) (b : Booking) : Int :=
  match parseSuffix b.booking_id with
  | some n => if n > m then n else m
  | none => m

/-- Numeric fold of `_generate_booking_id` (booking_engine.py lines 150-161):
running maximum, starting at zero, of the parsed suffixes `int(bid[1:])` of
every booking identifier, parse failures skipped. -/
def maxParsed (st : Ledger) : Int :=
  st.bookings.foldl maxStep 0

/-- Model of `_generate_booking_id` (booking_engine.py lines 142-162). -/
def generate_booking_id (st : Ledger) : String :=
  "B" ++ format03d (maxParsed st + 1)

/-- Model of `make_booking` (booking_engine.py lines 165-255). -/
def make_booking (st : Ledger)
    (equipment_name date start_time end_time club_name booked_by telegram_username :
      String) : Ledger × String :=
  match parse_slot date start_time end_time with
  | none => (st, invalidDateTimeMsg)
  | some (start_dt, end_dt) =>
    if end_dt.key ≤ start_dt.key then (st, endAfterStartMsg)
    else
      match scalarOneOrNone (findEquipment st equipment_name) with
      | none => (st, makeInternalErrorMsg)
      | some none => (st, notFoundEquipmentMsg equipment_name)
      | some (some equipment) =>
        if equipment.available_quantity ≤ 0 then (st, allUnitsMsg equipment.name)
        else
          match scalarOneOrNone (activeConflicts st equipment.id start_dt end_dt) with
          | none => (st, makeInternalErrorMsg)
          | some (some conflict) => (st, alreadyBookedMsg equipment.name conflict)
          | some none =>
            let booking_id := generate_booking_id st
            let booking : Booking :=
              { booking_id := booking_id
                equipment_id := equipment.id
                club_name := club_name
                booked_by := booked_by
                telegram_username := telegram_username
                start_time := start_dt
                end_time := end_dt
                status := "active" }
            let st' : Ledger :=
              { equipment :=
                  updateWhere (nameMatches equipment_name)
                    (fun e => { e with available_quantity := e.available_quantity - 1 })
                    st.equipment
                bookings := st.bookings ++ [booking] }
            (st', confirmationMsg equipment.name club_name start_dt end_dt booking_id
              booked_by telegram_username)

/-- Status overwrite of the cancel and return transitions. -/
def setStatus (s : String) (b : Booking) : Booking :=
  { b with status := s }

/-- Capacity release, `equipment.available_quantity += 1`. -/
def incAvailable (e : Equipment) : Equipment :=
  { e with available_quantity := e.available_quantity + 1 }

/-- Model of `cancel_booking` (booking_engine.py lines 294-331). -/
def cancel_booking (st : Ledger) (booking_id : String) : Ledger × String :=
  match scalarOneOrNone (st.bookings.filter (bookingIdMatches booking_id)) with
  | none => (st, cancelInternalErrorMsg)
  | some none => (st, "Booking " ++ booking_id ++ " not found.")
  | some (some booking) =>
    if booking.status ≠ "active" then
      (st, "Booking " ++ booking_id ++ " is already " ++ booking.status ++
        " and cannot be cancelled.")
    else
      match scalarOneOrNone (st.equipment.filter (fun e => e.id == booking.equipment_id)) with
      | none => (st, cancelInternalErrorMsg)
      | some eqOpt =>
        let st' : Ledger :=
          { equipment :=
              match eqOpt with
              | some _ =>
                updateWhere (fun e => e.id == booking.equipment_id) incAvailable st.equipment
              | none => st.equipment
            bookings :=
              updateWhere (bookingIdMatches booking_id) (setStatus "cancelled") st.bookings }
        let eq_name := match eqOpt with
          | some equipment => equipment.name
          | none => "the equipment"
        (st', "✅ Booking " ++ booking_id ++ " has been cancelled. " ++ eq_name ++
          " is now available.")

/-- Model of `return_equipment` (booking_engine.py lines 334-369). -/
def return_equipment (st : Ledger) (booking_id : String) : Ledger × String :=
  match scalarOneOrNone (st.bookings.filter (bookingIdMatches booking_id)) with
  | none => (st, returnInternalErrorMsg)
  | some none => (st, "Booking " ++ booking_id ++ " not found.")
  | some (some booking) =>
    if booking.status ≠ "active" then
      (st, "Booking " ++ booking_id ++ " is already " ++ booking.status ++ ".")
    else
      match scalarOneOrNone (st.equipment.filter (fun e => e.id == booking.equipment_id)) with
      | none => (st, returnInternalErrorMsg)
      | some eqOpt =>
        let st' : Ledger :=
          { equipment :=
              match eqOpt with
              | some _ =>
                updateWhere (fun e => e.id == booking.equipment_id) incAvailable st.equipment
              | none => st.equipment
            bookings :=
              updateWhere (bookingIdMatches booking_id) (setStatus "returned") st.bookings }
        let eq_name := match eqOpt with
          | some equipment => equipment.name
          | none => "the equipment"
        (st', "✅ Equipment returned successfully. Booking " ++ booking_id ++
          " marked as returned. " ++ eq_name ++ " is back in the pool.")

/-- One display line of `list_equipment`. -/
def equipmentLine (i : Nat) (e : Equipment) : String :=
  renderNat i ++ ". " ++ e.name ++ " — " ++ intRepr e.available_quantity ++ "/" ++
    intRepr e.total_quantity ++ " available (" ++ e.condition ++ ")"

/-- Model of `list_equipment` (booking_engine.py lines 54-75). -/
def list_equipment (st : Ledger) : String :=
  let sorted := sortWith byNameLe st.equipment
  if sorted.isEmpty then "No equipment found in the system."
  else
    String.intercalate "\n"
      (["📦 Available Equipment:", "─────────────────────"] ++
        ((sorted.enumFrom 1).map (fun p => equipmentLine p.1 p.2)) ++
        ["─────────────────────"])

/-- Decide whether `pat` begins the list `l`. -/
def listStarts : List Char → List Char → Bool
  | _, [] => true
  | [], _ :: _ => false
  | a :: as2, b :: bs => a == b && listStarts as2 bs

/-- Substring test on character lists (SQL `LIKE '%text%'`). -/
def listContainsSub : List Char → List Char → Bool
  | [], pat => pat.isEmpty
  | l@(_ :: rest), pat => listStarts l pat || listContainsSub rest pat

/-- Case-insensitive substring match on the club name
(`Booking.club_name.ilike(f"%{club_name}%")`). -/
def clubMatches (needle : String) (b : Booking) : Bool :=
  listContainsSub (strToLower b.club_name).data (strToLower needle).data

/-- The inner join on the equipment foreign key: the booking's equipment
row, if present. -/
def joinedEquipment (st : Ledger) (b : Booking) : Option Equipment :=
  st.equipment.find? (fun e => e.id == b.equipment_id)

/-- Date label `strftime("%-d %b")` of the listing views. -/
def shortDateLabel (dt : DateTime) : String :=
  renderNat dt.day ++ " " ++ monthAbbr dt.month

/-- One display line of `get_bookings`. -/
def clubBookingLine (st : Ledger) (b : Booking) : String :=
  b.booking_id ++ " | " ++ (match joinedEquipment st b with
    | some e => e.name
    | none => "") ++ " | " ++ shortDateLabel b.start_time ++ " | " ++
    fmt_time b.start_time ++ "–" ++ fmt_time b.end_time

/-- Model of `get_bookings` (booking_engine.py lines 258-291). -/
def get_bookings (st : Ledger) (club_name : String) : String :=
  let rows := sortWith byStartLe
    (st.bookings.filter (fun b =>
      clubMatches club_name b && b.status == "active" && (joinedEquipment st b).isSome))
  if rows.isEmpty then "No active bookings found for " ++ club_name ++ "."
  else
    String.intercalate "\n"
      (["📋 Active Bookings for " ++ club_name ++ ":", "─────────────────────"] ++
        rows.map (clubBookingLine st) ++ ["─────────────────────"])

/-- One display line of `get_active_bookings`. -/
def activeBookingLine (st : Ledger) (b : Booking) : String :=
  b.booking_id ++ " | " ++ (match joinedEquipment st b with
    | some e => e.name
    | none => "") ++ " | " ++ b.club_name ++ " | " ++ b.booked_by ++ " | " ++
    shortDateLabel b.start_time ++ " " ++ fmt_time b.start_time ++ "–" ++ fmt_time b.end_time

/-- Model of `get_active_bookings` (booking_engine.py lines 372-402). -/
def get_active_bookings (st : Ledger) : String :=
  let rows := sortWith byStartLe
    (st.bookings.filter (fun b => b.status == "active" && (joinedEquipment st b).isSome))
  if rows.isEmpty then "No active bookings at the moment."
  else
    String.intercalate "\n"
      (["📋 All Active Bookings:", "─────────────────────"] ++
        rows.map (activeBookingLine st) ++ ["─────────────────────"])

/-- Model of `str(arguments.get(key, ""))` in the tool executor: a missing
argument is passed on as the empty string. -/
def getArg (arguments : List (String × String)) (key : String) : String :=
  (arguments.lookup key).getD ""

namespace ToolExecutor

/-- Model of `ToolExecutor.execute` (tool_executor.py lines 21-72): a string
result is produced for every tool name and argument map; an unrecognized
name yields the unknown-tool reply without evaluating any engine call. -/
def execute (st : Ledger) (tool_name : String) (arguments : List (String × String)) :
    Ledger × String :=
  if tool_name == "list_equipment" then (st, list_equipment st)
  else if tool_name == "check_availability" then
    (st, check_availability st (getArg arguments "equipment_name") (getArg arguments "date")
      (getArg arguments "start_time") (getArg arguments "end_time"))
  else if tool_name == "make_booking" then
    make_booking st (getArg arguments "equipment_name") (getArg arguments "date")
      (getArg arguments "start_time") (getArg arguments "end_time")
      (getArg arguments "club_name") (getArg arguments "booked_by")
      (getArg arguments "telegram_username")
  else if tool_name == "get_bookings" then (st, get_bookings st (getArg arguments "club_name"))
  else if tool_name == "cancel_booking" then cancel_booking st (getArg arguments "booking_id")
  else if tool_name == "return_equipment" then
    return_equipment st (getArg arguments "booking_id")
  else if tool_name == "get_active_bookings" then (st, get_active_bookings st)
  else (st, "Unknown tool '" ++ tool_name ++ "'. No action was taken.")

end ToolExecutor

/-- The three ledger-mutating operations the invariant claims quantify
over. -/
inductive Op where
  | make (equipment_name date start_time end_time club_name booked_by telegram_username :
      String)
  | cancel (booking_id : String)
  | ret (booking_id : String)

/-- Apply one operation to the ledger. -/
def applyOp (st : Ledger) : Op → Ledger × String
  | .make en d s e c b t => make_booking st en d s e c b t
  | .cancel bid => cancel_booking st bid
  | .ret bid => return_equipment st bid

/-- Run a sequence of operations, keeping only the ledger. -/
def runOps (st : Ledger) (ops : List Op) : Ledger :=
  ops.foldl (fun s op => (applyOp s op).1) st

/-- Overlap-freedom of a pair of bookings: not both active on the same
equipment with intersecting half-open intervals. -/
def overlapFree (a b : Booking) : Bool :=
  !(a.status == "active" && b.status == "active" && a.equipment_id == b.equipment_id &&
    decide (a.start_time.key < b.end_time.key) && decide (b.start_time.key < a.end_time.key))

/-- Boolean pairwise test over a list. -/
def pairwiseB (r : α → α → Bool) : List α → Bool
  | [] => true
  | a :: l => l.all (r a) && pairwiseB r l

/-- The no-overlap invariant of the ledger (spec §3 and §8): no two distinct
active reservations on the same resource have overlapping intervals. -/
def NoOverlap (st : Ledger) : Prop :=
  pairwiseB overlapFree st.bookings = true

/-- The reservation row a successful `make_booking` inserts. -/
def newBooking (st : Ledger) (equipment : Equipment)
    (club_name booked_by telegram_username : String)
    (start_dt end_dt : DateTime) : Booking :=
  { booking_id := generate_booking_id st
    equipment_id := equipment.id
    club_name := club_name
    booked_by := booked_by
    telegram_username := telegram_username
    start_time := start_dt
    end_time := end_dt
    status := "active" }

/-- The ledger a successful `make_booking` commits: one unit decremented on
the resolved equipment row, the new reservation appended. -/
def makeSuccessState (st : Ledger) (equipment_name : String) (b : Booking) : Ledger :=
  { equipment :=
      updateWhere (nameMatches equipment_name)
        (fun e => { e with available_quantity := e.available_quantity - 1 }) st.equipment
    bookings := st.bookings ++ [b] }

/-- The ledger after a cancel/return transition: status overwritten on the
matched reservation, one unit released on the matched equipment rows. -/
def terminalSuccessState (st : Ledger) (bid : String) (b : Booking)
    (newStatus : String) (found : Bool) : Ledger :=
  { equipment :=
      if found then
        updateWhere (fun e => e.id == b.equipment_id) incAvailable st.equipment
      else st.equipment
    bookings := updateWhere (bookingIdMatches bid) (setStatus newStatus) st.bookings }

/-- Filter selecting the active reservations of equipment id `j`. -/
def isActiveOn (j : Nat) (b : Booking) : Bool :=
  b.equipment_id == j && b.status == "active"

/-- Number of active reservations referencing equipment id `j`. -/
def activeCount (st : Ledger) (j : Nat) : Nat :=
  (st.bookings.filter (isActiveOn j)).length

/-- Number of equipment rows carrying id `j`; the primary key of
`equipment.id` (db/models.py) keeps this at most one in any database
state. -/
def idCount (st : Ledger) (j : Nat) : Nat :=
  (st.equipment.filter (fun e => e.id == j)).length

/-- Inductive capacity invariant: every row is within bounds, and every row
with a unique id satisfies the accounting equation
`available = total - active`. -/
def CapInv (st : Ledger) : Prop :=
  ∀ e ∈ st.equipment,
    (0 ≤ e.available_quantity ∧ e.available_quantity ≤ e.total_quantity) ∧
    (idCount st e.id = 1 →
      e.available_quantity = e.total_quantity - (activeCount st e.id : Int))

/-- The starting-state hypothesis of the capacity claim: every resource
satisfies the accounting equation and the capacity bounds. -/
def FullCapEq (st : Ledger) : Prop :=
  ∀ e ∈ st.equipment,
    e.available_quantity = e.total_quantity - (activeCount st e.id : Int) ∧
    0 ≤ e.available_quantity ∧ e.available_quantity ≤ e.total_quantity

/-! ### Concrete fixtures used by witnesses and counterexamples -/

/-- A two-unit projector resource (the spec §8 scenario). -/
def equipW : Equipment :=
  { id := 1, name := "Projector", total_quantity := 2, available_quantity := 2,
    condition := "good" }

/-- A three-unit resource with one unit left. -/
def equipW3 : Equipment :=
  { id := 1, name := "Projector", total_quantity := 3, available_quantity := 1,
    condition := "good" }

/-- Empty-bookings starting ledger of the scenario. -/
def ledgerW : Ledger := { equipment := [equipW], bookings := [] }

/-- The reservation the scenario's first booking creates. -/
def bookingW : Booking :=
  { booking_id := "B001", equipment_id := 1, club_name := "Robotics Club",
    booked_by := "Raj", telegram_username := "@raj123",
    start_time := { year := 2025, month := 3, day := 15, hour := 15, minute := 0 },
    end_time := { year := 2025, month := 3, day := 15, hour := 17, minute := 0 },
    status := "active" }

/-- A second active reservation adjacent to the first. -/
def bookingW2 : Booking :=
  { booking_id := "B002", equipment_id := 1, club_name := "Chess Club",
    booked_by := "Ana", telegram_username := "@ana",
    start_time := { year := 2025, month := 3, day := 15, hour := 17, minute := 0 },
    end_time := { year := 2025, month := 3, day := 15, hour := 18, minute := 0 },
    status := "active" }

/-- An active reservation whose equipment row does not exist. -/
def bookingDangling : Booking :=
  { booking_id := "B007", equipment_id := 99, club_name := "Drama Club",
    booked_by := "Ben", telegram_username := "@ben",
    start_time := { year := 2025, month := 3, day := 16, hour := 9, minute := 0 },
    end_time := { year := 2025, month := 3, day := 16, hour := 10, minute := 0 },
    status := "active" }

/-- Ledger holding one active reservation on the projector. -/
def ledgerW1 : Ledger :=
  { equipment := [{ equipW with available_quantity := 1 }], bookings := [bookingW] }

/-- Ledger with two adjacent active reservations and one unit still free. -/
def ledgerW2 : Ledger :=
  { equipment := [equipW3], bookings := [bookingW, bookingW2] }

/-- Ledger with an active reservation referencing missing equipment. -/
def ledgerWDangling : Ledger :=
  { equipment := [equipW], bookings := [bookingDangling] }

/-- Ledger whose only reservation is already cancelled. -/
def ledgerWCancelled : Ledger :=
  { equipment := [equipW], bookings := [setStatus "cancelled" bookingW] }

/-! ### List-level helper lemmas -/

theorem filter_eq_nil_all {p : α → Bool} {l : List α} (h : l.filter p = []) :
    ∀ a ∈ l, p a = false := by
  induction l with
  | nil => intro a ha; cases ha
  | cons x t ih =>
    intro a ha
    rw [List.mem_cons] at ha
    by_cases hx : p x
    · simp [List.filter_cons, hx] at h
    · rcases ha with ha | ha
      · rw [ha]; simpa using hx
      · exact ih (by simpa [List.filter_cons, hx] using h) a ha

theorem filter_singleton_decomp {p : α → Bool} {l : List α} {x : α}
    (h : l.filter p = [x]) :
    ∃ l1 l2, l = l1 ++ x :: l2 ∧ p x = true ∧
      (∀ a ∈ l1, p a = false) ∧ (∀ a ∈ l2, p a = false) := by
  induction l with
  | nil => simp at h
  | cons a t ih =>
    by_cases ha : p a
    · have h' : a :: t.filter p = [x] := by simpa [List.filter_cons, ha] using h
      have hax : a = x ∧ t.filter p = [] := by
        simpa [List.cons.injEq] using h'
      exact ⟨[], t, by simp [hax.1], hax.1 ▸ ha, by simp,
        filter_eq_nil_all hax.2⟩
    · have ht : t.filter p = [x] := by simpa [List.filter_cons, ha] using h
      rcases ih ht with ⟨l1, l2, hdec, hx, h1, h2⟩
      refine ⟨a :: l1, l2, by simp [hdec], hx, ?_, h2⟩
      intro b hb
      rw [List.mem_cons] at hb
      rcases hb with hb | hb
      · rw [hb]; simpa using ha
      · exact h1 b hb

theorem updateWhere_eq_map (p : α → Bool) (f : α → α) (l : List α) :
    updateWhere p f l = l.map (fun a => if p a then f a else a) := by
  induction l with
  | nil => rfl
  | cons a t ih => simp [updateWhere, ih]

theorem updateWhere_append (p : α → Bool) (f : α → α) (l1 l2 : List α) :
    updateWhere p f (l1 ++ l2) = updateWhere p f l1 ++ updateWhere p f l2 := by
  induction l1 with
  | nil => rfl
  | cons a t ih => simp [updateWhere, ih]

theorem updateWhere_nomatch {p : α → Bool} {l : List α} (f : α → α)
    (h : ∀ a ∈ l, p a = false) : updateWhere p f l = l := by
  induction l with
  | nil => rfl
  | cons a t ih =>
    have ha := h a (by simp)
    simp [updateWhere, ha, ih (fun b hb => h b (by simp [hb]))]

theorem updateWhere_of_filter_singleton {p : α → Bool} {l : List α} {x : α}
    (f : α → α) (h : l.filter p = [x]) :
    ∃ l1 l2, l = l1 ++ x :: l2 ∧ p x = true ∧
      (∀ a ∈ l1, p a = false) ∧ (∀ a ∈ l2, p a = false) ∧
      updateWhere p f l = l1 ++ f x :: l2 := by
  rcases filter_singleton_decomp h with ⟨l1, l2, hdec, hx, h1, h2⟩
  refine ⟨l1, l2, hdec, hx, h1, h2, ?_⟩
  rw [hdec, updateWhere_append, updateWhere_nomatch f h1]
  simp [updateWhere, hx, updateWhere_nomatch f h2]

theorem scalarOneOrNone_some_none {l : List α} :
    scalarOneOrNone l = some none ↔ l = [] := by
  cases l with
  | nil => simp [scalarOneOrNone]
  | cons a t => cases t <;> simp [scalarOneOrNone]

theorem scalarOneOrNone_some_some {l : List α} {a : α} :
    scalarOneOrNone l = some (some a) ↔ l = [a] := by
  cases l with
  | nil => simp [scalarOneOrNone]
  | cons b t => cases t <;> simp [scalarOneOrNone]

theorem mem_insertSorted (le : α → α → Bool) (a : α) (l : List α) (x : α) :
    x ∈ insertSorted le a l ↔ x = a ∨ x ∈ l := by
  induction l with
  | nil => simp [insertSorted]
  | cons b t ih =>
    by_cases h : le a b
    · simp [insertSorted, h]
    · simp only [insertSorted, if_neg h, List.mem_cons, ih]
      tauto

theorem mem_sortWith (le : α → α → Bool) (l : List α) (x : α) :
    x ∈ sortWith le l ↔ x ∈ l := by
  induction l with
  | nil => simp [sortWith]
  | cons a t ih => simp [sortWith, mem_insertSorted, ih]

theorem sortWith_eq_nil {le : α → α → Bool} {l : List α} (h : sortWith le l = []) :
    l = [] := by
  cases l with
  | nil => rfl
  | cons a t =>
    exfalso
    have : a ∈ sortWith le (a :: t) := by
      rw [mem_sortWith]; simp
    rw [h] at this
    cases this

theorem sortWith_byStart_min :
    ∀ (l : List Booking) (c : Booking) (t : List Booking),
      sortWith byStartLe l = c :: t →
      ∀ x ∈ l, c.start_time.key ≤ x.start_time.key := by
  intro l
  induction l with
  | nil => intro c t h; simp [sortWith] at h
  | cons a rest ih =>
    intro c t h x hx
    rw [List.mem_cons] at hx
    simp only [sortWith] at h
    cases hrest : sortWith byStartLe rest with
    | nil =>
      have : rest = [] := sortWith_eq_nil hrest
      subst this
      rw [hrest] at h
      simp [insertSorted] at h
      rcases hx with hx | hx
      · rw [hx, ← h.1]
      · simp at hx
    | cons c' t' =>
      rw [hrest] at h
      by_cases hle : byStartLe a c'
      · simp only [insertSorted, if_pos hle] at h
        have hc : c = a := by injection h with h1 _; exact h1.symm
        have hac' : a.start_time.key ≤ c'.start_time.key := by
          simpa [byStartLe] using hle
        rcases hx with hx | hx
        · rw [hx, hc]
        · rcases (mem_sortWith byStartLe rest x).mpr hx |> fun hm => hm with hm
          rw [hrest, List.mem_cons] at hm
          rcases hm with hm | hm
          · rw [hc, hm]; exact hac'
          · have := ih c' t' hrest x hx
            exact hc ▸ le_trans hac' this
      · simp only [insertSorted, if_neg hle] at h
        have hc : c = c' := by injection h with h1 _; exact h1.symm
        have hca : c'.start_time.key ≤ a.start_time.key := by
          have : ¬ a.start_time.key ≤ c'.start_time.key := by
            simpa [byStartLe] using hle
          omega
        rcases hx with hx | hx
        · rw [hx, hc]; exact hca
        · exact hc ▸ ih c' t' hrest x hx

theorem maxByEnd_spec :
    ∀ (l : List Booking) (c : Booking),
      (maxByEnd c l = c ∨ maxByEnd c l ∈ l) ∧
      c.end_time.key ≤ (maxByEnd c l).end_time.key ∧
      ∀ x ∈ l, x.end_time.key ≤ (maxByEnd c l).end_time.key := by
  intro l
  induction l with
  | nil => intro c; exact ⟨Or.inl rfl, le_refl _, by simp⟩
  | cons b t ih =>
    intro c
    have hstep : maxByEnd c (b :: t) =
        maxByEnd (if c.end_time.key < b.end_time.key then b else c) t := by
      simp [maxByEnd, List.foldl_cons]
    by_cases hcb : c.end_time.key < b.end_time.key
    · rw [hstep, if_pos hcb]
      rcases ih b with ⟨hmem, hge, hall⟩
      refine ⟨?_, ?_, ?_⟩
      · rcases hmem with hm | hm
        · exact Or.inr (by simp [hm])
        · exact Or.inr (by simp [hm])
      · exact le_trans (le_of_lt hcb) hge
      · intro x hx
        rw [List.mem_cons] at hx
        rcases hx with hx | hx
        · rw [hx]; exact hge
        · exact hall x hx
    · rw [hstep, if_neg hcb]
      rcases ih c with ⟨hmem, hge, hall⟩
      refine ⟨?_, hge, ?_⟩
      · rcases hmem with hm | hm
        · exact Or.inl hm
        · exact Or.inr (by simp [hm])
      · intro x hx
        rw [List.mem_cons] at hx
        rcases hx with hx | hx
        · rw [hx]; exact le_trans (le_of_not_lt hcb) hge
        · exact hall x hx

/-! ### Pairwise overlap freedom -/




theorem pairwiseB_cons (r : α → α → Bool) (a : α) (l : List α) :
    pairwiseB r (a :: l) = true ↔
      (∀ b ∈ l, r a b = true) ∧ pairwiseB r l = true := by
  simp [pairwiseB, List.all_eq_true]

theorem pairwiseB_append_singleton (r : α → α → Bool) (l : List α) (x : α) :
    pairwiseB r (l ++ [x]) = true ↔
      pairwiseB r l = true ∧ ∀ a ∈ l, r a x = true := by
  induction l with
  | nil => simp [pairwiseB]
  | cons a t ih =>
    rw [List.cons_append, pairwiseB_cons, pairwiseB_cons, ih]
    constructor
    · rintro ⟨hall, hp, hx⟩
      refine ⟨⟨fun b hb => hall b (by simp [hb]), hp⟩, fun b hb => ?_⟩
      rcases List.mem_cons.mp hb with hb | hb
      · subst hb
        exact hall x (by simp)
      · exact hx b hb
    · rintro ⟨⟨hall, hp⟩, hx⟩
      refine ⟨fun b hb => ?_, hp, fun b hb => hx b (by simp [hb])⟩
      rcases List.mem_append.mp hb with hb | hb
      · exact hall b hb
      · rw [List.mem_singleton] at hb
        subst hb
        exact hx a (by simp)

theorem pairwiseB_map_pointwise {r : α → α → Bool} {g : α → α}
    (hg : ∀ a b, r a b = true → r (g a) (g b) = true) :
    ∀ {l : List α}, pairwiseB r l = true → pairwiseB r (l.map g) = true := by
  intro l
  induction l with
  | nil => simp [pairwiseB]
  | cons a t ih =>
    intro h
    simp only [pairwiseB, Bool.and_eq_true, List.all_eq_true] at h
    simp only [List.map_cons, pairwiseB, Bool.and_eq_true, List.all_eq_true]
    exact ⟨fun b hb => by
      rcases List.mem_map.mp hb with ⟨b0, hb0, rfl⟩
      exact hg a b0 (h.1 b0 hb0), ih h.2⟩

theorem scalarOneOrNone_nil : scalarOneOrNone ([] : List α) = some none := rfl

theorem scalarOneOrNone_singleton (a : α) : scalarOneOrNone [a] = some (some a) := rfl

/-! ### Branch equations of the engine operations -/



theorem make_booking_parse_fail {d s e : String} (st : Ledger) (en club by_ tu : String)
    (h : parse_slot d s e = none) :
    make_booking st en d s e club by_ tu = (st, invalidDateTimeMsg) := by
  simp [make_booking, h]

theorem make_booking_bad_interval {d s e : String} {sd ed : DateTime}
    (st : Ledger) (en club by_ tu : String)
    (h : parse_slot d s e = some (sd, ed)) (hk : ed.key ≤ sd.key) :
    make_booking st en d s e club by_ tu = (st, endAfterStartMsg) := by
  simp [make_booking, h, hk]

theorem make_booking_multi_equipment {d s e : String} {sd ed : DateTime}
    {st : Ledger} {en : String} (club by_ tu : String)
    (h : parse_slot d s e = some (sd, ed)) (hk : ¬ ed.key ≤ sd.key)
    (hsc : scalarOneOrNone (findEquipment st en) = none) :
    make_booking st en d s e club by_ tu = (st, makeInternalErrorMsg) := by
  simp [make_booking, h, hk, hsc]

theorem make_booking_not_found {d s e : String} {sd ed : DateTime}
    {st : Ledger} {en : String} (club by_ tu : String)
    (h : parse_slot d s e = some (sd, ed)) (hk : ¬ ed.key ≤ sd.key)
    (hfe : findEquipment st en = []) :
    make_booking st en d s e club by_ tu = (st, notFoundEquipmentMsg en) := by
  simp [make_booking, h, hk, hfe, scalarOneOrNone_nil]

theorem make_booking_no_units {d s e : String} {sd ed : DateTime}
    {st : Ledger} {en : String} {equipment : Equipment} (club by_ tu : String)
    (h : parse_slot d s e = some (sd, ed)) (hk : ¬ ed.key ≤ sd.key)
    (hfe : findEquipment st en = [equipment])
    (hav : equipment.available_quantity ≤ 0) :
    make_booking st en d s e club by_ tu = (st, allUnitsMsg equipment.name) := by
  simp [make_booking, h, hk, hfe, scalarOneOrNone_singleton, hav]

theorem make_booking_conflict {d s e : String} {sd ed : DateTime}
    {st : Ledger} {en : String} {equipment : Equipment} {c1 : Booking} (club by_ tu : String)
    (h : parse_slot d s e = some (sd, ed)) (hk : ¬ ed.key ≤ sd.key)
    (hfe : findEquipment st en = [equipment])
    (hav : ¬ equipment.available_quantity ≤ 0)
    (hc : activeConflicts st equipment.id sd ed = [c1]) :
    make_booking st en d s e club by_ tu = (st, alreadyBookedMsg equipment.name c1) := by
  simp [make_booking, h, hk, hfe, scalarOneOrNone_singleton, scalarOneOrNone_nil, hav, hc]

theorem make_booking_multi_conflict {d s e : String} {sd ed : DateTime}
    {st : Ledger} {en : String} {equipment : Equipment} (club by_ tu : String)
    (h : parse_slot d s e = some (sd, ed)) (hk : ¬ ed.key ≤ sd.key)
    (hfe : findEquipment st en = [equipment])
    (hav : ¬ equipment.available_quantity ≤ 0)
    (hc : scalarOneOrNone (activeConflicts st equipment.id sd ed) = none) :
    make_booking st en d s e club by_ tu = (st, makeInternalErrorMsg) := by
  simp [make_booking, h, hk, hfe, scalarOneOrNone_singleton, scalarOneOrNone_nil, hav, hc]

theorem make_booking_success {d s e : String} {sd ed : DateTime}
    {st : Ledger} {en : String} {equipment : Equipment} (club by_ tu : String)
    (h : parse_slot d s e = some (sd, ed)) (hk : ¬ ed.key ≤ sd.key)
    (hfe : findEquipment st en = [equipment])
    (hav : ¬ equipment.available_quantity ≤ 0)
    (hc : activeConflicts st equipment.id sd ed = []) :
    make_booking st en d s e club by_ tu =
      (makeSuccessState st en (newBooking st equipment club by_ tu sd ed),
       confirmationMsg equipment.name club sd ed (generate_booking_id st) by_ tu) := by
  simp [make_booking, h, hk, hfe, scalarOneOrNone_singleton, scalarOneOrNone_nil, hav, hc,
    makeSuccessState, newBooking]


theorem cancel_booking_multi {st : Ledger} {bid : String}
    (h : scalarOneOrNone (st.bookings.filter (bookingIdMatches bid)) = none) :
    cancel_booking st bid = (st, cancelInternalErrorMsg) := by
  simp [cancel_booking, h]

theorem cancel_booking_not_found {st : Ledger} {bid : String}
    (h : st.bookings.filter (bookingIdMatches bid) = []) :
    cancel_booking st bid = (st, "Booking " ++ bid ++ " not found.") := by
  simp [cancel_booking, h, scalarOneOrNone_nil]

theorem cancel_booking_terminal {st : Ledger} {bid : String} {b : Booking}
    (h : st.bookings.filter (bookingIdMatches bid) = [b])
    (hs : b.status ≠ "active") :
    cancel_booking st bid =
      (st, "Booking " ++ bid ++ " is already " ++ b.status ++
        " and cannot be cancelled.") := by
  simp [cancel_booking, h, scalarOneOrNone_singleton, hs]

theorem cancel_booking_multi_equipment {st : Ledger} {bid : String} {b : Booking}
    (h : st.bookings.filter (bookingIdMatches bid) = [b])
    (hs : b.status = "active")
    (he : scalarOneOrNone (st.equipment.filter (fun e => e.id == b.equipment_id)) = none) :
    cancel_booking st bid = (st, cancelInternalErrorMsg) := by
  simp [cancel_booking, h, scalarOneOrNone_singleton, hs, he]

theorem cancel_booking_dangling {st : Ledger} {bid : String} {b : Booking}
    (h : st.bookings.filter (bookingIdMatches bid) = [b])
    (hs : b.status = "active")
    (he : st.equipment.filter (fun e => e.id == b.equipment_id) = []) :
    cancel_booking st bid =
      (terminalSuccessState st bid b "cancelled" false,
       "✅ Booking " ++ bid ++ " has been cancelled. " ++ "the equipment" ++
         " is now available.") := by
  simp [cancel_booking, h, scalarOneOrNone_singleton, hs, he, scalarOneOrNone_nil,
    terminalSuccessState]

theorem cancel_booking_active {st : Ledger} {bid : String} {b : Booking} {eq2 : Equipment}
    (h : st.bookings.filter (bookingIdMatches bid) = [b])
    (hs : b.status = "active")
    (he : st.equipment.filter (fun e => e.id == b.equipment_id) = [eq2]) :
    cancel_booking st bid =
      (terminalSuccessState st bid b "cancelled" true,
       "✅ Booking " ++ bid ++ " has been cancelled. " ++ eq2.name ++
         " is now available.") := by
  simp [cancel_booking, h, scalarOneOrNone_singleton, hs, he, terminalSuccessState]

theorem return_equipment_multi {st : Ledger} {bid : String}
    (h : scalarOneOrNone (st.bookings.filter (bookingIdMatches bid)) = none) :
    return_equipment st bid = (st, returnInternalErrorMsg) := by
  simp [return_equipment, h]

theorem return_equipment_not_found {st : Ledger} {bid : String}
    (h : st.bookings.filter (bookingIdMatches bid) = []) :
    return_equipment st bid = (st, "Booking " ++ bid ++ " not found.") := by
  simp [return_equipment, h, scalarOneOrNone_nil]

theorem return_equipment_terminal {st : Ledger} {bid : String} {b : Booking}
    (h : st.bookings.filter (bookingIdMatches bid) = [b])
    (hs : b.status ≠ "active") :
    return_equipment st bid =
      (st, "Booking " ++ bid ++ " is already " ++ b.status ++ ".") := by
  simp [return_equipment, h, scalarOneOrNone_singleton, hs]

theorem return_equipment_multi_equipment {st : Ledger} {bid : String} {b : Booking}
    (h : st.bookings.filter (bookingIdMatches bid) = [b])
    (hs : b.status = "active")
    (he : scalarOneOrNone (st.equipment.filter (fun e => e.id == b.equipment_id)) = none) :
    return_equipment st bid = (st, returnInternalErrorMsg) := by
  simp [return_equipment, h, scalarOneOrNone_singleton, hs, he]

theorem return_equipment_dangling {st : Ledger} {bid : String} {b : Booking}
    (h : st.bookings.filter (bookingIdMatches bid) = [b])
    (hs : b.status = "active")
    (he : st.equipment.filter (fun e => e.id == b.equipment_id) = []) :
    return_equipment st bid =
      (terminalSuccessState st bid b "returned" false,
       "✅ Equipment returned successfully. Booking " ++ bid ++
         " marked as returned. " ++ "the equipment" ++ " is back in the pool.") := by
  simp [return_equipment, h, scalarOneOrNone_singleton, hs, he, scalarOneOrNone_nil,
    terminalSuccessState]

theorem return_equipment_active {st : Ledger} {bid : String} {b : Booking} {eq2 : Equipment}
    (h : st.bookings.filter (bookingIdMatches bid) = [b])
    (hs : b.status = "active")
    (he : st.equipment.filter (fun e => e.id == b.equipment_id) = [eq2]) :
    return_equipment st bid =
      (terminalSuccessState st bid b "returned" true,
       "✅ Equipment returned successfully. Booking " ++ bid ++
         " marked as returned. " ++ eq2.name ++ " is back in the pool.") := by
  simp [return_equipment, h, scalarOneOrNone_singleton, hs, he, terminalSuccessState]

theorem make_booking_fst_cases (st : Ledger) (en d s e club by_ tu : String) :
    (make_booking st en d s e club by_ tu).1 = st ∨
    ∃ sd ed equipment,
      parse_slot d s e = some (sd, ed) ∧
      ¬ ed.key ≤ sd.key ∧
      findEquipment st en = [equipment] ∧
      ¬ equipment.available_quantity ≤ 0 ∧
      activeConflicts st equipment.id sd ed = [] ∧
      (make_booking st en d s e club by_ tu).1 =
        makeSuccessState st en (newBooking st equipment club by_ tu sd ed) := by
  cases h : parse_slot d s e with
  | none => left; rw [make_booking_parse_fail st en club by_ tu h]
  | some p =>
    obtain ⟨sd, ed⟩ := p
    by_cases hk : ed.key ≤ sd.key
    · left
      rw [make_booking_bad_interval st en club by_ tu h hk]
    · cases hsc : scalarOneOrNone (findEquipment st en) with
      | none =>
        left
        rw [make_booking_multi_equipment club by_ tu h hk hsc]
      | some eo =>
        cases eo with
        | none =>
          left
          rw [make_booking_not_found club by_ tu h hk (scalarOneOrNone_some_none.mp hsc)]
        | some equipment =>
          have hfe := scalarOneOrNone_some_some.mp hsc
          by_cases hav : equipment.available_quantity ≤ 0
          · left
            rw [make_booking_no_units club by_ tu h hk hfe hav]
          · cases hc : scalarOneOrNone (activeConflicts st equipment.id sd ed) with
            | none =>
              left
              rw [make_booking_multi_conflict club by_ tu h hk hfe hav hc]
            | some co =>
              cases co with
              | none =>
                right
                have hcn := scalarOneOrNone_some_none.mp hc
                exact ⟨sd, ed, equipment, rfl, hk, hfe, hav, hcn,
                  by rw [make_booking_success club by_ tu h hk hfe hav hcn]⟩
              | some c1 =>
                left
                rw [make_booking_conflict club by_ tu h hk hfe hav
                  (scalarOneOrNone_some_some.mp hc)]

theorem cancel_booking_fst_cases (st : Ledger) (bid : String) :
    (cancel_booking st bid).1 = st ∨
    ∃ b, st.bookings.filter (bookingIdMatches bid) = [b] ∧ b.status = "active" ∧
      ((st.equipment.filter (fun e => e.id == b.equipment_id) = [] ∧
        (cancel_booking st bid).1 = terminalSuccessState st bid b "cancelled" false) ∨
       (∃ eq2, st.equipment.filter (fun e => e.id == b.equipment_id) = [eq2] ∧
        (cancel_booking st bid).1 = terminalSuccessState st bid b "cancelled" true)) := by
  cases hb : scalarOneOrNone (st.bookings.filter (bookingIdMatches bid)) with
  | none => left; rw [cancel_booking_multi hb]
  | some bo =>
    cases bo with
    | none => left; rw [cancel_booking_not_found (scalarOneOrNone_some_none.mp hb)]
    | some b =>
      have hfb := scalarOneOrNone_some_some.mp hb
      by_cases hs : b.status = "active"
      · cases he : scalarOneOrNone (st.equipment.filter (fun e => e.id == b.equipment_id)) with
        | none => left; rw [cancel_booking_multi_equipment hfb hs he]
        | some eo =>
          cases eo with
          | none =>
            right
            have hen := scalarOneOrNone_some_none.mp he
            exact ⟨b, hfb, hs, Or.inl ⟨hen, by rw [cancel_booking_dangling hfb hs hen]⟩⟩
          | some eq2 =>
            right
            have hes := scalarOneOrNone_some_some.mp he
            exact ⟨b, hfb, hs, Or.inr ⟨eq2, hes,
              by rw [cancel_booking_active hfb hs hes]⟩⟩
      · left
        rw [cancel_booking_terminal hfb hs]

theorem return_equipment_fst_cases (st : Ledger) (bid : String) :
    (return_equipment st bid).1 = st ∨
    ∃ b, st.bookings.filter (bookingIdMatches bid) = [b] ∧ b.status = "active" ∧
      ((st.equipment.filter (fun e => e.id == b.equipment_id) = [] ∧
        (return_equipment st bid).1 = terminalSuccessState st bid b "returned" false) ∨
       (∃ eq2, st.equipment.filter (fun e => e.id == b.equipment_id) = [eq2] ∧
        (return_equipment st bid).1 = terminalSuccessState st bid b "returned" true)) := by
  cases hb : scalarOneOrNone (st.bookings.filter (bookingIdMatches bid)) with
  | none => left; rw [return_equipment_multi hb]
  | some bo =>
    cases bo with
    | none => left; rw [return_equipment_not_found (scalarOneOrNone_some_none.mp hb)]
    | some b =>
      have hfb := scalarOneOrNone_some_some.mp hb
      by_cases hs : b.status = "active"
      · cases he : scalarOneOrNone (st.equipment.filter (fun e => e.id == b.equipment_id)) with
        | none => left; rw [return_equipment_multi_equipment hfb hs he]
        | some eo =>
          cases eo with
          | none =>
            right
            have hen := scalarOneOrNone_some_none.mp he
            exact ⟨b, hfb, hs, Or.inl ⟨hen, by rw [return_equipment_dangling hfb hs hen]⟩⟩
          | some eq2 =>
            right
            have hes := scalarOneOrNone_some_some.mp he
            exact ⟨b, hfb, hs, Or.inr ⟨eq2, hes,
              by rw [return_equipment_active hfb hs hes]⟩⟩
      · left
        rw [return_equipment_terminal hfb hs]

/-! ### Preservation of the no-overlap invariant -/

theorem overlapCond_iff (a b : Booking) :
    (a.status == "active" && b.status == "active" && a.equipment_id == b.equipment_id &&
      decide (a.start_time.key < b.end_time.key) &&
      decide (b.start_time.key < a.end_time.key)) = true ↔
      (a.status = "active" ∧ b.status = "active" ∧ a.equipment_id = b.equipment_id ∧
        a.start_time.key < b.end_time.key ∧ b.start_time.key < a.end_time.key) := by
  simp [and_assoc]

theorem overlapFree_iff (a b : Booking) :
    overlapFree a b = true ↔
      ¬(a.status = "active" ∧ b.status = "active" ∧ a.equipment_id = b.equipment_id ∧
        a.start_time.key < b.end_time.key ∧ b.start_time.key < a.end_time.key) := by
  rw [← overlapCond_iff]
  cases hx : (a.status == "active" && b.status == "active" &&
      a.equipment_id == b.equipment_id &&
      decide (a.start_time.key < b.end_time.key) &&
      decide (b.start_time.key < a.end_time.key)) <;>
    simp [overlapFree, hx]

theorem overlapFree_terminal_update (p : Booking → Bool) (ns : String)
    (hns : ns ≠ "active") (a b : Booking) (hab : overlapFree a b = true) :
    overlapFree (if p a then setStatus ns a else a)
      (if p b then setStatus ns b else b) = true := by
  by_cases hpa : p a
  · rw [if_pos hpa, overlapFree_iff]
    rintro ⟨h1, -⟩
    exact hns (by simpa [setStatus] using h1)
  · rw [if_neg hpa]
    by_cases hpb : p b
    · rw [if_pos hpb, overlapFree_iff]
      rintro ⟨-, h2, -⟩
      exact hns (by simpa [setStatus] using h2)
    · rw [if_neg hpb]
      exact hab

theorem pairwiseB_terminal_update {l : List Booking} (p : Booking → Bool) (ns : String)
    (hns : ns ≠ "active") (h : pairwiseB overlapFree l = true) :
    pairwiseB overlapFree (updateWhere p (setStatus ns) l) = true := by
  rw [updateWhere_eq_map]
  exact pairwiseB_map_pointwise (overlapFree_terminal_update p ns hns) h

theorem NoOverlap_make (st : Ledger) (en d s e club by_ tu : String)
    (h : NoOverlap st) : NoOverlap (make_booking st en d s e club by_ tu).1 := by
  rcases make_booking_fst_cases st en d s e club by_ tu with
    heq | ⟨sd, ed, equipment, hp, hk, hfe, hav, hc, heq⟩
  · rw [heq]; exact h
  · rw [heq]
    unfold NoOverlap makeSuccessState
    refine (pairwiseB_append_singleton ..).mpr ⟨h, ?_⟩
    intro a ha
    have hna : overlapsB equipment.id sd ed a = false :=
      filter_eq_nil_all (by simpa [activeConflicts] using hc) a ha
    rw [overlapFree_iff]
    rintro ⟨ha1, -, ha3, ha4, ha5⟩
    have : overlapsB equipment.id sd ed a = true := by
      have h3 : a.equipment_id = equipment.id := by simpa [newBooking] using ha3
      have h4 : a.start_time.key < ed.key := by simpa [newBooking] using ha4
      have h5 : sd.key < a.end_time.key := by simpa [newBooking] using ha5
      simp [overlapsB, ha1, h3, h4, h5]
    rw [hna] at this
    cases this

theorem NoOverlap_cancel (st : Ledger) (bid : String)
    (h : NoOverlap st) : NoOverlap (cancel_booking st bid).1 := by
  rcases cancel_booking_fst_cases st bid with heq | ⟨b, hfb, hs, hcase⟩
  · rw [heq]; exact h
  · rcases hcase with ⟨-, heq⟩ | ⟨eq2, -, heq⟩ <;>
      (rw [heq]
       exact pairwiseB_terminal_update _ "cancelled" (by decide) h)

theorem NoOverlap_ret (st : Ledger) (bid : String)
    (h : NoOverlap st) : NoOverlap (return_equipment st bid).1 := by
  rcases return_equipment_fst_cases st bid with heq | ⟨b, hfb, hs, hcase⟩
  · rw [heq]; exact h
  · rcases hcase with ⟨-, heq⟩ | ⟨eq2, -, heq⟩ <;>
      (rw [heq]
       exact pairwiseB_terminal_update _ "returned" (by decide) h)

theorem NoOverlap_applyOp (st : Ledger) (op : Op)
    (h : NoOverlap st) : NoOverlap (applyOp st op).1 := by
  cases op with
  | make en d s e club by_ tu => exact NoOverlap_make st en d s e club by_ tu h
  | cancel bid => exact NoOverlap_cancel st bid h
  | ret bid => exact NoOverlap_ret st bid h

theorem NoOverlap_runOps (ops : List Op) :
    ∀ st : Ledger, NoOverlap st → NoOverlap (runOps st ops) := by
  induction ops with
  | nil => intro st h; exact h
  | cons op t ih =>
    intro st h
    exact ih (applyOp st op).1 (NoOverlap_applyOp st op h)

theorem pairwiseB_get {r : α → α → Bool} :
    ∀ {l : List α}, pairwiseB r l = true →
      ∀ (i j : Nat) (hi : i < l.length) (hj : j < l.length), i < j →
        r (l.get ⟨i, hi⟩) (l.get ⟨j, hj⟩) = true := by
  intro l
  induction l with
  | nil => intro _ i j hi _ _; cases hi
  | cons a t ih =>
    intro h i j hi hj hij
    rcases (pairwiseB_cons r a t).mp h with ⟨hall, ht⟩
    cases i with
    | zero =>
      cases j with
      | zero => cases hij
      | succ j' =>
        have : t.get ⟨j', Nat.lt_of_succ_lt_succ hj⟩ ∈ t :=
          List.get_mem t j' (Nat.lt_of_succ_lt_succ hj)
        exact hall _ this
    | succ i' =>
      cases j with
      | zero => cases hij
      | succ j' =>
        exact ih ht i' j' (Nat.lt_of_succ_lt_succ hi) (Nat.lt_of_succ_lt_succ hj)
          (Nat.lt_of_succ_lt_succ hij)

/-- C1: starting from a ledger whose active reservations do not overlap,
every sequence of make_booking, cancel_booking and return_equipment
operations preserves the no-overlap property — in every reachable state no
two distinct reservations I and J that are both active on the same resource
satisfy both I.start < J.end and J.start < I.end, because make_booking
rejects any request overlapping an existing active reservation on the
resolved resource. -/
theorem C1_no_overlap_invariant (st : Ledger) (ops : List Op) (h : NoOverlap st) :
    NoOverlap (runOps st ops) ∧
    ∀ (i j : Nat) (hi : i < (runOps st ops).bookings.length)
      (hj : j < (runOps st ops).bookings.length), i ≠ j →
      ¬(((runOps st ops).bookings.get ⟨i, hi⟩).status = "active" ∧
        ((runOps st ops).bookings.get ⟨j, hj⟩).status = "active" ∧
        ((runOps st ops).bookings.get ⟨i, hi⟩).equipment_id =
          ((runOps st ops).bookings.get ⟨j, hj⟩).equipment_id ∧
        ((runOps st ops).bookings.get ⟨i, hi⟩).start_time.key <
          ((runOps st ops).bookings.get ⟨j, hj⟩).end_time.key ∧
        ((runOps st ops).bookings.get ⟨j, hj⟩).start_time.key <
          ((runOps st ops).bookings.get ⟨i, hi⟩).end_time.key) := by
  have hrun : NoOverlap (runOps st ops) := NoOverlap_runOps ops st h
  refine ⟨hrun, ?_⟩
  intro i j hi hj hij hc
  rcases hc with ⟨h1, h2, h3, h4, h5⟩
  rcases Nat.lt_or_ge i j with hlt | hge
  · have := (overlapFree_iff _ _).mp (pairwiseB_get hrun i j hi hj hlt)
    exact this ⟨h1, h2, h3, h4, h5⟩
  · have hlt : j < i := Nat.lt_of_le_of_ne hge (fun he => hij he.symm)
    have := (overlapFree_iff _ _).mp (pairwiseB_get hrun j i hj hi hlt)
    exact this ⟨h2, h1, h3.symm, h5, h4⟩

/-- Concrete run of several operations exercising C1's hypothesis. -/
theorem C1_no_overlap_invariant_witness :
    NoOverlap ledgerW ∧
    NoOverlap (runOps ledgerW
      [Op.make "Projector" "2025-03-15" "15:00" "17:00" "Robotics Club" "Raj" "@raj123",
       Op.cancel "B001",
       Op.make "projector" "2025-03-15" "16:00" "18:00" "Chess Club" "Ana" "@ana"]) :=
  ⟨by unfold NoOverlap; decide,
   (C1_no_overlap_invariant ledgerW
      [Op.make "Projector" "2025-03-15" "15:00" "17:00" "Robotics Club" "Raj" "@raj123",
       Op.cancel "B001",
       Op.make "projector" "2025-03-15" "16:00" "18:00" "Chess Club" "Ana" "@ana"]
      (by unfold NoOverlap; decide)).1⟩

/-! ### Preservation of the capacity invariant -/

theorem FullCapEq_CapInv {st : Ledger} (h : FullCapEq st) : CapInv st := by
  intro e he
  rcases h e he with ⟨heq, h0, h1⟩
  exact ⟨⟨h0, h1⟩, fun _ => heq⟩

theorem filter_length_updateWhere (q p : α → Bool) (f : α → α)
    (hf : ∀ a, p (f a) = p a) (l : List α) :
    ((updateWhere q f l).filter p).length = (l.filter p).length := by
  induction l with
  | nil => rfl
  | cons a t ih =>
    simp only [updateWhere]
    by_cases hq : q a
    · rw [if_pos hq, List.filter_cons, List.filter_cons, hf a]
      cases hpa : p a <;> simp [ih]
    · rw [if_neg hq, List.filter_cons, List.filter_cons]
      cases hpa : p a <;> simp [ih]

theorem filter_length_update_single {l : List α} {q : α → Bool} {x : α}
    (f : α → α) (p : α → Bool) (h : l.filter q = [x]) :
    ((updateWhere q f l).filter p).length + (if p x = true then 1 else 0)
      = (l.filter p).length + (if p (f x) = true then 1 else 0) := by
  obtain ⟨l1, l2, hdec, hx, h1, h2, hupd⟩ := updateWhere_of_filter_singleton f h
  rw [hupd, hdec]
  simp only [List.filter_append, List.filter_cons, List.length_append]
  cases hpx : p x <;> cases hpfx : p (f x) <;> simp <;> omega

theorem two_le_length_filter {l1 l2 : List α} {x y : α} {p : α → Bool}
    (hp1 : p x = true) (hp2 : p y = true) (hy : y ∈ l1 ∨ y ∈ l2) :
    2 ≤ ((l1 ++ x :: l2).filter p).length := by
  rcases hy with h | h
  · have h1 : y ∈ l1.filter p := List.mem_filter.mpr ⟨h, hp2⟩
    have h2 : 1 ≤ (l1.filter p).length :=
      List.length_pos.mpr (List.ne_nil_of_mem h1)
    simp only [List.filter_append, List.filter_cons, hp1, if_pos, List.length_append]
    simp
    omega
  · have h1 : y ∈ l2.filter p := List.mem_filter.mpr ⟨h, hp2⟩
    have h2 : 1 ≤ (l2.filter p).length :=
      List.length_pos.mpr (List.ne_nil_of_mem h1)
    simp only [List.filter_append, List.filter_cons, hp1, if_pos, List.length_append]
    simp
    omega

theorem one_le_length_filter {l : List α} {x : α} {p : α → Bool}
    (hx : x ∈ l) (hp : p x = true) : 1 ≤ (l.filter p).length :=
  List.length_pos.mpr (List.ne_nil_of_mem (List.mem_filter.mpr ⟨hx, hp⟩))

theorem idCount_make (st : Ledger) (en : String) (b : Booking) (j : Nat) :
    idCount (makeSuccessState st en b) j = idCount st j := by
  simp only [idCount, makeSuccessState]
  exact filter_length_updateWhere (nameMatches en) (fun e => e.id == j)
    (fun e => { e with available_quantity := e.available_quantity - 1 })
    (fun a => rfl) st.equipment

theorem activeCount_make (st : Ledger) (en : String) (b : Booking) (j : Nat) :
    activeCount (makeSuccessState st en b) j
      = activeCount st j + (if isActiveOn j b = true then 1 else 0) := by
  simp only [activeCount, makeSuccessState, List.filter_append, List.length_append]
  cases h : isActiveOn j b <;> simp [List.filter_cons, h]

theorem CapInv_make (st : Ledger) (en d s e club by_ tu : String) (h : CapInv st) :
    CapInv (make_booking st en d s e club by_ tu).1 := by
  rcases make_booking_fst_cases st en d s e club by_ tu with
    heq | ⟨sd, ed, equipment, hp, hk, hfe, hav, hc, heq⟩
  · rw [heq]; exact h
  rw [heq]
  obtain ⟨l1, l2, hdec, hx, h1, h2, hupd⟩ :=
    updateWhere_of_filter_singleton
      (fun e2 => { e2 with available_quantity := e2.available_quantity - 1 })
      (show st.equipment.filter (nameMatches en) = [equipment] from hfe)
  have hidc := idCount_make st en (newBooking st equipment club by_ tu sd ed)
  have hacc := activeCount_make st en (newBooking st equipment club by_ tu sd ed)
  have hequipMem : equipment ∈ st.equipment := by rw [hdec]; simp
  intro e' he'
  have hmem : e' ∈ l1 ∨
      e' = { equipment with available_quantity := equipment.available_quantity - 1 } ∨
      e' ∈ l2 := by
    have hm0 : e' ∈ updateWhere (nameMatches en)
        (fun e2 => { e2 with available_quantity := e2.available_quantity - 1 })
        st.equipment := by
      simpa [makeSuccessState] using he'
    rw [hupd] at hm0
    simpa [List.mem_append, List.mem_cons] using hm0
  have hside : ∀ e0 : Equipment, e0 ∈ l1 ∨ e0 ∈ l2 → e0 = e' →
      (0 ≤ e'.available_quantity ∧ e'.available_quantity ≤ e'.total_quantity) ∧
      (idCount (makeSuccessState st en (newBooking st equipment club by_ tu sd ed)) e'.id = 1 →
        e'.available_quantity = e'.total_quantity -
          (activeCount (makeSuccessState st en (newBooking st equipment club by_ tu sd ed))
            e'.id : Int)) := by
    intro e0 hm0 hee
    subst hee
    have he'o : e0 ∈ st.equipment := by
      rw [hdec]
      rcases hm0 with hm0 | hm0
      · exact List.mem_append.mpr (Or.inl hm0)
      · exact List.mem_append.mpr (Or.inr (by simp [hm0]))
    refine ⟨(h e0 he'o).1, ?_⟩
    intro hid1
    rw [hidc] at hid1
    have hne : e0.id ≠ equipment.id := by
      intro heqid
      have h2le : 2 ≤ idCount st e0.id := by
        rw [idCount, hdec]
        exact two_le_length_filter (x := equipment) (y := e0)
          (p := fun e2 => e2.id == e0.id) (by simp [heqid]) (by simp) hm0
      omega
    have hnact : isActiveOn e0.id (newBooking st equipment club by_ tu sd ed) = false := by
      simp [isActiveOn, newBooking]
      intro hcontra
      exact absurd hcontra.symm hne
    rw [hacc, hnact]
    simpa using (h e0 he'o).2 hid1
  rcases hmem with hm | hm | hm
  · exact hside e' (Or.inl hm) rfl
  · have hbounds := (h equipment hequipMem).1
    subst hm
    constructor
    · constructor
      · simp only []
        omega
      · simp only []
        omega
    · intro hid1
      rw [hidc] at hid1
      have heqn := (h equipment hequipMem).2 hid1
      have hact : isActiveOn equipment.id (newBooking st equipment club by_ tu sd ed) = true := by
        simp [isActiveOn, newBooking]
      rw [hacc, hact]
      simp only []
      push_cast
      omega
  · exact hside e' (Or.inr hm) rfl

theorem activeCount_terminal {st : Ledger} {bid : String} {b : Booking}
    (ns : String) (found : Bool) (hns : (ns == "active") = false)
    (hfb : st.bookings.filter (bookingIdMatches bid) = [b]) (j : Nat) :
    activeCount (terminalSuccessState st bid b ns found) j
      + (if isActiveOn j b = true then 1 else 0) = activeCount st j := by
  have hstep := filter_length_update_single (setStatus ns) (isActiveOn j) hfb
  have hz : isActiveOn j (setStatus ns b) = false := by
    simp [isActiveOn, setStatus, hns]
  rw [hz] at hstep
  simp only [activeCount, terminalSuccessState]
  simpa using hstep

theorem CapInv_terminal_dangling {st : Ledger} {bid : String} {b : Booking}
    (ns : String) (hns : (ns == "active") = false)
    (hfb : st.bookings.filter (bookingIdMatches bid) = [b])
    (he : st.equipment.filter (fun e => e.id == b.equipment_id) = [])
    (h : CapInv st) : CapInv (terminalSuccessState st bid b ns false) := by
  intro e' he'
  have he'o : e' ∈ st.equipment := by simpa [terminalSuccessState] using he'
  have hne : (e'.id == b.equipment_id) = false := filter_eq_nil_all he e' he'o
  have hne' : b.equipment_id ≠ e'.id := by
    intro hcontra
    rw [hcontra] at hne
    simp at hne
  have hnact : isActiveOn e'.id b = false := by
    simp [isActiveOn, hne']
  have hcount : activeCount (terminalSuccessState st bid b ns false) e'.id
      = activeCount st e'.id := by
    have hc := activeCount_terminal ns false hns hfb e'.id
    rw [hnact] at hc
    simpa using hc
  have hidc : idCount (terminalSuccessState st bid b ns false) e'.id
      = idCount st e'.id := by
    simp [idCount, terminalSuccessState]
  refine ⟨(h e' he'o).1, ?_⟩
  intro hid1
  rw [hidc] at hid1
  rw [hcount]
  exact (h e' he'o).2 hid1

theorem CapInv_terminal_active {st : Ledger} {bid : String} {b : Booking} {eq2 : Equipment}
    (ns : String) (hns : (ns == "active") = false)
    (hfb : st.bookings.filter (bookingIdMatches bid) = [b]) (hs : b.status = "active")
    (he : st.equipment.filter (fun e => e.id == b.equipment_id) = [eq2])
    (h : CapInv st) : CapInv (terminalSuccessState st bid b ns true) := by
  obtain ⟨k1, k2, hdec, hxe, hk1, hk2, hupd⟩ := updateWhere_of_filter_singleton incAvailable he
  have hxid : eq2.id = b.equipment_id := by simpa using hxe
  have hbmem : b ∈ st.bookings := List.mem_of_mem_filter (by rw [hfb]; simp)
  have hbact : isActiveOn eq2.id b = true := by simp [isActiveOn, hxid, hs]
  have hone : 1 ≤ activeCount st eq2.id := one_le_length_filter hbmem hbact
  have heq2Mem : eq2 ∈ st.equipment := by rw [hdec]; simp
  have hidc : ∀ j, idCount (terminalSuccessState st bid b ns true) j = idCount st j := by
    intro j
    simp only [idCount, terminalSuccessState]
    exact filter_length_updateWhere (fun e => e.id == b.equipment_id)
      (fun e => e.id == j) incAvailable (fun a => rfl) st.equipment
  have hid2 : idCount st eq2.id = 1 := by
    rw [idCount, hxid, he]
    rfl
  have heqn := (h eq2 heq2Mem).2 hid2
  have hcnt' : activeCount (terminalSuccessState st bid b ns true) eq2.id + 1
      = activeCount st eq2.id := by
    have hc := activeCount_terminal ns true hns hfb eq2.id
    rw [hbact] at hc
    simpa using hc
  intro e' he'
  have hmem : e' ∈ k1 ∨ e' = incAvailable eq2 ∨ e' ∈ k2 := by
    have hm0 : e' ∈ updateWhere (fun e => e.id == b.equipment_id) incAvailable
        st.equipment := by
      simpa [terminalSuccessState] using he'
    rw [hupd] at hm0
    simpa [List.mem_append, List.mem_cons] using hm0
  have hside : ∀ e0 : Equipment, e0 ∈ k1 ∨ e0 ∈ k2 → e0 = e' →
      (0 ≤ e'.available_quantity ∧ e'.available_quantity ≤ e'.total_quantity) ∧
      (idCount (terminalSuccessState st bid b ns true) e'.id = 1 →
        e'.available_quantity = e'.total_quantity -
          (activeCount (terminalSuccessState st bid b ns true) e'.id : Int)) := by
    intro e0 hm0 hee
    subst hee
    have he'o : e0 ∈ st.equipment := by
      rw [hdec]
      rcases hm0 with hm0 | hm0
      · exact List.mem_append.mpr (Or.inl hm0)
      · exact List.mem_append.mpr (Or.inr (by simp [hm0]))
    have hne : (e0.id == b.equipment_id) = false := by
      rcases hm0 with hm0 | hm0
      · exact hk1 e0 hm0
      · exact hk2 e0 hm0
    have hne' : b.equipment_id ≠ e0.id := by
      intro hcontra
      rw [hcontra] at hne
      simp at hne
    have hnact : isActiveOn e0.id b = false := by simp [isActiveOn, hne']
    have hcount : activeCount (terminalSuccessState st bid b ns true) e0.id
        = activeCount st e0.id := by
      have hc := activeCount_terminal ns true hns hfb e0.id
      rw [hnact] at hc
      simpa using hc
    refine ⟨(h e0 he'o).1, ?_⟩
    intro hid1
    rw [hidc] at hid1
    rw [hcount]
    exact (h e0 he'o).2 hid1
  rcases hmem with hm | hm | hm
  · exact hside e' (Or.inl hm) rfl
  · have hbounds := (h eq2 heq2Mem).1
    subst hm
    constructor
    · constructor
      · simp only [incAvailable]
        omega
      · simp only [incAvailable]
        omega
    · intro hid1
      have hcnt'' := hcnt'
      rw [show (incAvailable eq2).id = eq2.id from rfl]
      simp only [incAvailable]
      omega
  · exact hside e' (Or.inr hm) rfl

theorem CapInv_cancel (st : Ledger) (bid : String) (h : CapInv st) :
    CapInv (cancel_booking st bid).1 := by
  rcases cancel_booking_fst_cases st bid with heq | ⟨b, hfb, hs, hcase⟩
  · rw [heq]; exact h
  rcases hcase with ⟨he, heq⟩ | ⟨eq2, he, heq⟩
  · rw [heq]
    exact CapInv_terminal_dangling "cancelled" (by decide) hfb he h
  · rw [heq]
    exact CapInv_terminal_active "cancelled" (by decide) hfb hs he h

theorem CapInv_ret (st : Ledger) (bid : String) (h : CapInv st) :
    CapInv (return_equipment st bid).1 := by
  rcases return_equipment_fst_cases st bid with heq | ⟨b, hfb, hs, hcase⟩
  · rw [heq]; exact h
  rcases hcase with ⟨he, heq⟩ | ⟨eq2, he, heq⟩
  · rw [heq]
    exact CapInv_terminal_dangling "returned" (by decide) hfb he h
  · rw [heq]
    exact CapInv_terminal_active "returned" (by decide) hfb hs he h

theorem CapInv_applyOp (st : Ledger) (op : Op) (h : CapInv st) :
    CapInv (applyOp st op).1 := by
  cases op with
  | make en d s e club by_ tu => exact CapInv_make st en d s e club by_ tu h
  | cancel bid => exact CapInv_cancel st bid h
  | ret bid => exact CapInv_ret st bid h

theorem CapInv_runOps (ops : List Op) :
    ∀ st : Ledger, CapInv st → CapInv (runOps st ops) := by
  induction ops with
  | nil => intro st h; exact h
  | cons op t ih =>
    intro st h
    exact ih (applyOp st op).1 (CapInv_applyOp st op h)

/-- C2: starting from any ledger in which every resource satisfies
`available = total - (number of active reservations)` together with
`0 ≤ available ≤ total`, every sequence of make_booking, cancel_booking and
return_equipment operations keeps `0 ≤ available_quantity ≤ total_quantity`
for every resource: make_booking rejects when availability is exhausted
before decrementing, and cancel/return increment only on an
active-to-terminal transition. -/
theorem C2_capacity_bounds (st : Ledger) (ops : List Op) (h : FullCapEq st) :
    CapInv (runOps st ops) ∧
    ∀ e ∈ (runOps st ops).equipment,
      0 ≤ e.available_quantity ∧ e.available_quantity ≤ e.total_quantity := by
  have hinv : CapInv (runOps st ops) := CapInv_runOps ops st (FullCapEq_CapInv h)
  exact ⟨hinv, fun e he => (hinv e he).1⟩

/-- Concrete run of cancel, booking and return operations exercising C2's
hypothesis. -/
theorem C2_capacity_bounds_witness :
    FullCapEq ledgerW1 ∧
    ∀ e ∈ (runOps ledgerW1
      [Op.cancel "B001",
       Op.make "Projector" "2025-03-15" "10:00" "12:00" "Chess Club" "Ana" "@ana",
       Op.ret "B002"]).equipment,
      0 ≤ e.available_quantity ∧ e.available_quantity ≤ e.total_quantity :=
  ⟨by unfold FullCapEq; decide,
   (C2_capacity_bounds ledgerW1
      [Op.cancel "B001",
       Op.make "Projector" "2025-03-15" "10:00" "12:00" "Chess Club" "Ana" "@ana",
       Op.ret "B002"]
      (by unfold FullCapEq; decide)).2⟩

/-! ### Row characterization helpers and check_availability branches -/

theorem filter_updateWhere_map {p : α → Bool} (f : α → α)
    (hf : ∀ a, p (f a) = p a) (l : List α) :
    (updateWhere p f l).filter p = (l.filter p).map f := by
  induction l with
  | nil => rfl
  | cons a t ih =>
    simp only [updateWhere]
    by_cases hpa : p a
    · rw [if_pos hpa, List.filter_cons, List.filter_cons]
      simp [hf a, hpa, ih]
    · rw [if_neg hpa, List.filter_cons, List.filter_cons]
      simp only [hpa]
      simpa using ih

theorem mem_updateWhere_of_nomatch {p : α → Bool} {l : List α} (f : α → α) {a : α}
    (ha : a ∈ l) (hpa : p a = false) : a ∈ updateWhere p f l := by
  rw [updateWhere_eq_map]
  exact List.mem_map.mpr ⟨a, ha, by rw [hpa]; simp⟩

theorem length_updateWhere (p : α → Bool) (f : α → α) (l : List α) :
    (updateWhere p f l).length = l.length := by
  rw [updateWhere_eq_map, List.length_map]

theorem check_availability_parse_fail {d s e : String} (st : Ledger) (en : String)
    (h : parse_slot d s e = none) :
    check_availability st en d s e = invalidDateTimeMsg := by
  simp [check_availability, h]

theorem check_availability_bad_interval {d s e : String} {sd ed : DateTime}
    (st : Ledger) (en : String)
    (h : parse_slot d s e = some (sd, ed)) (hk : ed.key ≤ sd.key) :
    check_availability st en d s e = endAfterStartMsg := by
  simp [check_availability, h, hk]

theorem check_availability_not_found {d s e : String} {sd ed : DateTime}
    {st : Ledger} {en : String}
    (h : parse_slot d s e = some (sd, ed)) (hk : ¬ ed.key ≤ sd.key)
    (hfe : findEquipment st en = []) :
    check_availability st en d s e = notFoundEquipmentMsg en := by
  simp [check_availability, h, hk, hfe, scalarOneOrNone_nil]

theorem check_availability_allunits {d s e : String} {sd ed : DateTime}
    {st : Ledger} {en : String} {equipment : Equipment}
    (h : parse_slot d s e = some (sd, ed)) (hk : ¬ ed.key ≤ sd.key)
    (hfe : findEquipment st en = [equipment])
    (hav : equipment.available_quantity ≤ 0)
    (hc : activeConflicts st equipment.id sd ed = []) :
    check_availability st en d s e = allUnitsMsg equipment.name := by
  simp [check_availability, h, hk, hfe, scalarOneOrNone_singleton, hc, sortWith, hav]

theorem check_availability_available {d s e : String} {sd ed : DateTime}
    {st : Ledger} {en : String} {equipment : Equipment}
    (h : parse_slot d s e = some (sd, ed)) (hk : ¬ ed.key ≤ sd.key)
    (hfe : findEquipment st en = [equipment])
    (hav : ¬ equipment.available_quantity ≤ 0)
    (hc : activeConflicts st equipment.id sd ed = []) :
    check_availability st en d s e = availableMsg equipment.name sd ed := by
  simp [check_availability, h, hk, hfe, scalarOneOrNone_singleton, hc, sortWith, hav]

theorem check_availability_unavailable {d s e : String} {sd ed : DateTime}
    {st : Ledger} {en : String} {equipment : Equipment} {c : Booking} {t : List Booking}
    (h : parse_slot d s e = some (sd, ed)) (hk : ¬ ed.key ≤ sd.key)
    (hfe : findEquipment st en = [equipment])
    (hsort : sortWith byStartLe (activeConflicts st equipment.id sd ed) = c :: t) :
    check_availability st en d s e =
      unavailableMsg equipment.name c (maxByEnd c t) := by
  simp [check_availability, h, hk, hfe, scalarOneOrNone_singleton, hsort]

/-- C4: every rejection path of make_booking — parse failure, an interval
whose end does not lie after its start, an unresolvable equipment name,
exhausted availability, or a nonempty conflict re-check — leaves the ledger
exactly as it was and inserts no reservation row. -/
theorem C4_rejection_leaves_state (st : Ledger) (en d s e club by_ tu : String)
    (h : parse_slot d s e = none ∨
      (∃ sd ed, parse_slot d s e = some (sd, ed) ∧ ed.key ≤ sd.key) ∨
      findEquipment st en = [] ∨
      (∃ sd ed equipment, parse_slot d s e = some (sd, ed) ∧
        findEquipment st en = [equipment] ∧
        (equipment.available_quantity ≤ 0 ∨
          activeConflicts st equipment.id sd ed ≠ []))) :
    (make_booking st en d s e club by_ tu).1 = st ∧
    (make_booking st en d s e club by_ tu).1.bookings = st.bookings := by
  rcases make_booking_fst_cases st en d s e club by_ tu with
    heq | ⟨sd, ed, equipment, hp, hk, hfe, hav, hc, heq⟩
  · exact ⟨heq, by rw [heq]⟩
  · exfalso
    rcases h with h | ⟨sd', ed', hps, hk'⟩ | h | ⟨sd', ed', equipment', hps, hfe', hd⟩
    · rw [hp] at h
      cases h
    · rw [hp] at hps
      injection hps with hpair
      injection hpair with h1 h2
      subst h1
      subst h2
      exact hk hk'
    · rw [hfe] at h
      cases h
    · rw [hp] at hps
      injection hps with hpair
      injection hpair with h1 h2
      subst h1
      subst h2
      rw [hfe] at hfe'
      injection hfe' with h3 _
      subst h3
      rcases hd with hd | hd
      · exact hav hd
      · exact hd hc

/-- Concrete conflicting request showing C4's hypothesis satisfied: the
ledger is unchanged. -/
theorem C4_rejection_leaves_state_witness :
    activeConflicts ledgerW1 1 ⟨2025, 3, 15, 16, 0⟩ ⟨2025, 3, 15, 18, 0⟩ ≠ [] ∧
    (make_booking ledgerW1 "Projector" "2025-03-15" "16:00" "18:00"
      "Chess Club" "Ana" "@ana").1 = ledgerW1 :=
  ⟨by decide,
   (C4_rejection_leaves_state ledgerW1 "Projector" "2025-03-15" "16:00" "18:00"
      "Chess Club" "Ana" "@ana"
      (Or.inr (Or.inr (Or.inr ⟨⟨2025, 3, 15, 16, 0⟩, ⟨2025, 3, 15, 18, 0⟩,
        { equipW with available_quantity := 1 }, by decide, by decide,
        Or.inr (by decide)⟩)))).1⟩

/-- C10: both check_availability and make_booking build the two interval
endpoints from the single date argument, so a reservation can never span
more than one calendar day; whenever the end clock time is not after the
start clock time, both operations reject with the end-after-start message
and make_booking leaves the ledger unchanged. -/
theorem C10_single_day (st : Ledger) (en d ts te club by_ tu : String)
    (sd ed : DateTime) (hp : parse_slot d ts te = some (sd, ed)) :
    (sd.year = ed.year ∧ sd.month = ed.month ∧ sd.day = ed.day) ∧
    (ed.hour * 60 + ed.minute ≤ sd.hour * 60 + sd.minute →
      check_availability st en d ts te = endAfterStartMsg ∧
      make_booking st en d ts te club by_ tu = (st, endAfterStartMsg)) := by
  have hstruct : sd.year = ed.year ∧ sd.month = ed.month ∧ sd.day = ed.day := by
    unfold parse_slot at hp
    rcases hdd : parseDate? d with _ | ⟨y, mo, dd⟩ <;> rw [hdd] at hp
    · simp at hp
    rcases hts : parseTime? ts with _ | ⟨h1, mi1⟩ <;> rw [hts] at hp
    · simp at hp
    rcases hte : parseTime? te with _ | ⟨h2, mi2⟩ <;> rw [hte] at hp
    · simp at hp
    simp only [Option.some.injEq, Prod.mk.injEq] at hp
    rcases hp with ⟨hsd, hed⟩
    subst hsd
    subst hed
    exact ⟨rfl, rfl, rfl⟩
  refine ⟨hstruct, ?_⟩
  intro hclock
  have hkey : ed.key ≤ sd.key := by
    rcases hstruct with ⟨hy, hm, hd2⟩
    unfold DateTime.key
    rw [← hy, ← hm, ← hd2]
    omega
  exact ⟨check_availability_bad_interval st en hp hkey,
    make_booking_bad_interval st en club by_ tu hp hkey⟩

/-- Concrete overnight slot 22:00–01:00: both operations reject it. -/
theorem C10_single_day_witness :
    parse_slot "2025-03-15" "22:00" "01:00" =
      some (⟨2025, 3, 15, 22, 0⟩, ⟨2025, 3, 15, 1, 0⟩) ∧
    (check_availability ledgerW "Projector" "2025-03-15" "22:00" "01:00" =
        endAfterStartMsg ∧
      make_booking ledgerW "Projector" "2025-03-15" "22:00" "01:00"
        "Chess Club" "Ana" "@ana" = (ledgerW, endAfterStartMsg)) :=
  ⟨by decide,
   (C10_single_day ledgerW "Projector" "2025-03-15" "22:00" "01:00"
      "Chess Club" "Ana" "@ana" ⟨2025, 3, 15, 22, 0⟩ ⟨2025, 3, 15, 1, 0⟩
      (by decide)).2 (by decide)⟩

/-- C9: on an active reservation whose equipment row is missing from the
ledger, cancel_booking and return_equipment still flip the reservation to
its terminal status and report success naming "the equipment", while the
equipment table — and with it every resource's available capacity — is left
untouched: the active-to-terminal transition happens with no capacity
increment. -/
theorem C9_dangling_reference (st : Ledger) (bid : String) (b : Booking)
    (hfb : st.bookings.filter (bookingIdMatches bid) = [b])
    (hs : b.status = "active")
    (he : st.equipment.filter (fun e => e.id == b.equipment_id) = []) :
    cancel_booking st bid =
      ({ equipment := st.equipment,
         bookings := updateWhere (bookingIdMatches bid) (setStatus "cancelled")
           st.bookings },
       "✅ Booking " ++ bid ++ " has been cancelled. " ++ "the equipment" ++
         " is now available.") ∧
    return_equipment st bid =
      ({ equipment := st.equipment,
         bookings := updateWhere (bookingIdMatches bid) (setStatus "returned")
           st.bookings },
       "✅ Equipment returned successfully. Booking " ++ bid ++
         " marked as returned. " ++ "the equipment" ++ " is back in the pool.") ∧
    (cancel_booking st bid).1.equipment = st.equipment ∧
    (return_equipment st bid).1.equipment = st.equipment ∧
    (cancel_booking st bid).1.bookings.filter (bookingIdMatches bid) =
      [setStatus "cancelled" b] ∧
    (return_equipment st bid).1.bookings.filter (bookingIdMatches bid) =
      [setStatus "returned" b] := by
  have hc := cancel_booking_dangling hfb hs he
  have hr := return_equipment_dangling hfb hs he
  have hfilt : ∀ ns : String,
      (updateWhere (bookingIdMatches bid) (setStatus ns) st.bookings).filter
        (bookingIdMatches bid) = [setStatus ns b] := by
    intro ns
    rw [filter_updateWhere_map (p := bookingIdMatches bid) (setStatus ns)
      (fun a => rfl), hfb]
    rfl
  refine ⟨by rw [hc]; rfl, by rw [hr]; rfl, by rw [hc]; rfl, by rw [hr]; rfl, ?_, ?_⟩
  · rw [hc]
    exact hfilt "cancelled"
  · rw [hr]
    exact hfilt "returned"

/-- Concrete dangling-reference ledger: the reservation is terminal after
the call yet no capacity changed. -/
theorem C9_dangling_reference_witness :
    ledgerWDangling.bookings.filter (bookingIdMatches "B007") = [bookingDangling] ∧
    (cancel_booking ledgerWDangling "B007").1.equipment = ledgerWDangling.equipment ∧
    (cancel_booking ledgerWDangling "B007").1.bookings.filter
      (bookingIdMatches "B007") = [setStatus "cancelled" bookingDangling] ∧
    (return_equipment ledgerWDangling "B007").1.equipment = ledgerWDangling.equipment :=
  ⟨by decide,
   (C9_dangling_reference ledgerWDangling "B007" bookingDangling
      (by decide) (by decide) (by decide)).2.2.1,
   (C9_dangling_reference ledgerWDangling "B007" bookingDangling
      (by decide) (by decide) (by decide)).2.2.2.2.1,
   (C9_dangling_reference ledgerWDangling "B007" bookingDangling
      (by decide) (by decide) (by decide)).2.2.2.1⟩

/-- C7: cancel_booking and return_equipment behave identically in shape: an
identifier matching no reservation (case-insensitively) reports not-found
and changes nothing; a reservation already cancelled or returned yields an
already-status reply and changes neither the reservation nor any capacity;
an active reservation whose equipment row resolves is flipped to the
terminal status, the resource's available capacity grows by exactly one,
and the confirmation names the freed resource. -/
theorem C7_cancel_return_protocol (st : Ledger) (bid : String) :
    (st.bookings.filter (bookingIdMatches bid) = [] →
      cancel_booking st bid = (st, "Booking " ++ bid ++ " not found.") ∧
      return_equipment st bid = (st, "Booking " ++ bid ++ " not found.")) ∧
    (∀ b, st.bookings.filter (bookingIdMatches bid) = [b] →
      (b.status = "cancelled" ∨ b.status = "returned") →
      cancel_booking st bid =
        (st, "Booking " ++ bid ++ " is already " ++ b.status ++
          " and cannot be cancelled.") ∧
      return_equipment st bid =
        (st, "Booking " ++ bid ++ " is already " ++ b.status ++ ".")) ∧
    (∀ b eq2, st.bookings.filter (bookingIdMatches bid) = [b] →
      b.status = "active" →
      st.equipment.filter (fun e => e.id == b.equipment_id) = [eq2] →
      ((cancel_booking st bid).2 =
          "✅ Booking " ++ bid ++ " has been cancelled. " ++ eq2.name ++
            " is now available." ∧
        (cancel_booking st bid).1.bookings.filter (bookingIdMatches bid) =
          [setStatus "cancelled" b] ∧
        (cancel_booking st bid).1.equipment.filter
          (fun e => e.id == b.equipment_id) = [incAvailable eq2] ∧
        (cancel_booking st bid).1.bookings.length = st.bookings.length ∧
        activeCount (cancel_booking st bid).1 b.equipment_id + 1 =
          activeCount st b.equipment_id) ∧
      ((return_equipment st bid).2 =
          "✅ Equipment returned successfully. Booking " ++ bid ++
            " marked as returned. " ++ eq2.name ++ " is back in the pool." ∧
        (return_equipment st bid).1.bookings.filter (bookingIdMatches bid) =
          [setStatus "returned" b] ∧
        (return_equipment st bid).1.equipment.filter
          (fun e => e.id == b.equipment_id) = [incAvailable eq2] ∧
        (return_equipment st bid).1.bookings.length = st.bookings.length ∧
        activeCount (return_equipment st bid).1 b.equipment_id + 1 =
          activeCount st b.equipment_id)) := by
  refine ⟨?_, ?_, ?_⟩
  · intro hnil
    exact ⟨cancel_booking_not_found hnil, return_equipment_not_found hnil⟩
  · intro b hfb hterm
    have hs : b.status ≠ "active" := by
      rcases hterm with h | h <;> rw [h] <;> decide
    exact ⟨cancel_booking_terminal hfb hs, return_equipment_terminal hfb hs⟩
  · intro b eq2 hfb hs he
    have hbact : isActiveOn b.equipment_id b = true := by simp [isActiveOn, hs]
    have hfiltB : ∀ ns : String,
        (updateWhere (bookingIdMatches bid) (setStatus ns) st.bookings).filter
          (bookingIdMatches bid) = [setStatus ns b] := by
      intro ns
      rw [filter_updateWhere_map (p := bookingIdMatches bid) (setStatus ns)
        (fun a => rfl), hfb]
      rfl
    have hfiltE :
        (updateWhere (fun e => e.id == b.equipment_id) incAvailable
          st.equipment).filter (fun e => e.id == b.equipment_id) =
          [incAvailable eq2] := by
      rw [filter_updateWhere_map (p := fun e => e.id == b.equipment_id)
        incAvailable (fun a => rfl), he]
      rfl
    constructor
    · have hc := cancel_booking_active hfb hs he
      have hcnt := activeCount_terminal "cancelled" true (by decide) hfb b.equipment_id
      rw [hbact] at hcnt
      refine ⟨by rw [hc], ?_, ?_, ?_, ?_⟩
      · rw [hc]
        exact hfiltB "cancelled"
      · rw [hc]
        exact hfiltE
      · rw [hc]
        exact length_updateWhere _ _ _
      · rw [hc]
        simpa using hcnt
    · have hr := return_equipment_active hfb hs he
      have hcnt := activeCount_terminal "returned" true (by decide) hfb b.equipment_id
      rw [hbact] at hcnt
      refine ⟨by rw [hr], ?_, ?_, ?_, ?_⟩
      · rw [hr]
        exact hfiltB "returned"
      · rw [hr]
        exact hfiltE
      · rw [hr]
        exact length_updateWhere _ _ _
      · rw [hr]
        simpa using hcnt

/-- Concrete exercises of all three C7 cases: unknown identifier, active
cancellation through a case-insensitive identifier, and an
already-cancelled reservation. -/
theorem C7_cancel_return_protocol_witness :
    cancel_booking ledgerW1 "B999" = (ledgerW1, "Booking B999 not found.") ∧
    (cancel_booking ledgerW1 "b001").2 =
      "✅ Booking b001 has been cancelled. Projector is now available." ∧
    activeCount (cancel_booking ledgerW1 "b001").1 1 + 1 = activeCount ledgerW1 1 ∧
    cancel_booking ledgerWCancelled "B001" =
      (ledgerWCancelled, "Booking B001 is already cancelled and cannot be cancelled.") :=
  ⟨((C7_cancel_return_protocol ledgerW1 "B999").1 (by decide)).1,
   ((C7_cancel_return_protocol ledgerW1 "b001").2.2 bookingW
      { equipW with available_quantity := 1 } (by decide) (by decide) (by decide)).1.1,
   ((C7_cancel_return_protocol ledgerW1 "b001").2.2 bookingW
      { equipW with available_quantity := 1 } (by decide) (by decide) (by decide)).1.2.2.2.2,
   ((C7_cancel_return_protocol ledgerWCancelled "B001").2.1
      (setStatus "cancelled" bookingW) (by decide) (Or.inl (by decide))).1⟩

/-- C6: for a resolvable equipment name and a valid interval,
check_availability reports all-units-checked-out when availability is zero
and no active reservation overlaps the window; reports available with the
resolved interval when no conflict exists and availability is positive;
and otherwise reports unavailable, naming an earliest-starting conflicting
reservation and its holder and giving the maximal conflicting end time as
the next free moment. -/
theorem C6_check_availability_outcomes (st : Ledger) (en d s e : String)
    (sd ed : DateTime) (equipment : Equipment)
    (hp : parse_slot d s e = some (sd, ed)) (hk : ¬ ed.key ≤ sd.key)
    (hfe : findEquipment st en = [equipment]) :
    (equipment.available_quantity = 0 →
      activeConflicts st equipment.id sd ed = [] →
      check_availability st en d s e = allUnitsMsg equipment.name) ∧
    (activeConflicts st equipment.id sd ed = [] →
      0 < equipment.available_quantity →
      check_availability st en d s e = availableMsg equipment.name sd ed) ∧
    (activeConflicts st equipment.id sd ed ≠ [] →
      ∃ c m, c ∈ activeConflicts st equipment.id sd ed ∧
        (∀ x ∈ activeConflicts st equipment.id sd ed,
          c.start_time.key ≤ x.start_time.key) ∧
        m ∈ activeConflicts st equipment.id sd ed ∧
        (∀ x ∈ activeConflicts st equipment.id sd ed,
          x.end_time.key ≤ m.end_time.key) ∧
        c.status = "active" ∧ c.equipment_id = equipment.id ∧
        check_availability st en d s e =
          unavailableMsg equipment.name c m) := by
  refine ⟨?_, ?_, ?_⟩
  · intro hav0 hc
    exact check_availability_allunits hp hk hfe (le_of_eq hav0) hc
  · intro hc hpos
    exact check_availability_available hp hk hfe (by omega) hc
  · intro hne
    cases hsort : sortWith byStartLe (activeConflicts st equipment.id sd ed) with
    | nil => exact absurd (sortWith_eq_nil hsort) hne
    | cons c t =>
      have hcmem : c ∈ activeConflicts st equipment.id sd ed := by
        have : c ∈ sortWith byStartLe (activeConflicts st equipment.id sd ed) := by
          rw [hsort]; simp
        exact (mem_sortWith _ _ _).mp this
      have hcmin := sortWith_byStart_min _ c t hsort
      rcases maxByEnd_spec t c with ⟨hmm, hmge, hmall⟩
      have hmmem : maxByEnd c t ∈ activeConflicts st equipment.id sd ed := by
        have : maxByEnd c t ∈ sortWith byStartLe (activeConflicts st equipment.id sd ed) := by
          rw [hsort]
          rcases hmm with hmm | hmm
          · simp [hmm]
          · simp [hmm]
        exact (mem_sortWith _ _ _).mp this
      have hcprops : overlapsB equipment.id sd ed c = true :=
        (List.mem_filter.mp hcmem).2
      have hcact : c.status = "active" := by
        simp [overlapsB] at hcprops
        exact hcprops.1.1.2
      have hceq : c.equipment_id = equipment.id := by
        simp [overlapsB] at hcprops
        exact hcprops.1.1.1
      refine ⟨c, maxByEnd c t, hcmem, hcmin, hmmem, ?_, hcact, hceq,
        check_availability_unavailable hp hk hfe hsort⟩
      intro x hx
      have hxs : x ∈ sortWith byStartLe (activeConflicts st equipment.id sd ed) :=
        (mem_sortWith _ _ _).mpr hx
      rw [hsort] at hxs
      rcases List.mem_cons.mp hxs with hxc | hxt
      · rw [hxc]
        exact hmge
      · exact hmall x hxt

/-- Concrete available outcome of check_availability on an empty ledger. -/
theorem C6_check_availability_outcomes_witness :
    activeConflicts ledgerW 1 ⟨2025, 3, 15, 15, 0⟩ ⟨2025, 3, 15, 17, 0⟩ = [] ∧
    check_availability ledgerW "Projector" "2025-03-15" "15:00" "17:00" =
      availableMsg "Projector" ⟨2025, 3, 15, 15, 0⟩ ⟨2025, 3, 15, 17, 0⟩ :=
  ⟨by decide,
   (C6_check_availability_outcomes ledgerW "Projector" "2025-03-15" "15:00" "17:00"
      ⟨2025, 3, 15, 15, 0⟩ ⟨2025, 3, 15, 17, 0⟩ equipW
      (by decide) (by decide) (by decide)).2.1 (by decide) (by decide)⟩

/-- C3 (amended): make_booking re-evaluates exactly the overlap query of
check_availability — the list activeConflicts on the same resolved resource
and interval — but reports conflicts differently: with exactly one
conflicting reservation it names that reservation's interval and holder
without any next-free moment; with two or more it returns an internal-error
reply (the single-row query raises on multiple rows); in every conflicting
case the ledger is unchanged. -/
theorem C3_make_booking_conflict_behavior (st : Ledger)
    (en d s e club by_ tu : String) (sd ed : DateTime) (equipment : Equipment)
    (hp : parse_slot d s e = some (sd, ed)) (hk : ¬ ed.key ≤ sd.key)
    (hfe : findEquipment st en = [equipment])
    (hav : ¬ equipment.available_quantity ≤ 0) :
    (∀ c1, activeConflicts st equipment.id sd ed = [c1] →
      make_booking st en d s e club by_ tu =
        (st, alreadyBookedMsg equipment.name c1)) ∧
    (∀ c1 c2 t, activeConflicts st equipment.id sd ed = c1 :: c2 :: t →
      make_booking st en d s e club by_ tu = (st, makeInternalErrorMsg)) ∧
    (activeConflicts st equipment.id sd ed ≠ [] →
      (make_booking st en d s e club by_ tu).1 = st) := by
  refine ⟨?_, ?_, ?_⟩
  · intro c1 hc
    exact make_booking_conflict club by_ tu hp hk hfe hav hc
  · intro c1 c2 t hc
    exact make_booking_multi_conflict club by_ tu hp hk hfe hav (by rw [hc]; rfl)
  · intro hne
    cases hc : activeConflicts st equipment.id sd ed with
    | nil => exact absurd hc hne
    | cons c1 t =>
      cases t with
      | nil =>
        rw [make_booking_conflict club by_ tu hp hk hfe hav hc]
      | cons c2 t2 =>
        rw [make_booking_multi_conflict club by_ tu hp hk hfe hav (by rw [hc]; rfl)]

/-- C3 counterexample: with two active reservations overlapping the request
window, check_availability reports the detailed unavailable outcome naming
the earliest conflict and the latest end time, while make_booking — despite
at least one conflict existing — replies with an internal error rather than
an unavailable outcome of the same detail. -/
theorem C3_counterexample :
    activeConflicts ledgerW2 1 ⟨2025, 3, 15, 16, 0⟩ ⟨2025, 3, 15, 17, 30⟩ =
      [bookingW, bookingW2] ∧
    check_availability ledgerW2 "Projector" "2025-03-15" "16:00" "17:30" =
      unavailableMsg "Projector" bookingW bookingW2 ∧
    make_booking ledgerW2 "Projector" "2025-03-15" "16:00" "17:30"
      "Drama Club" "Ben" "@ben" = (ledgerW2, makeInternalErrorMsg) ∧
    makeInternalErrorMsg ≠ unavailableMsg "Projector" bookingW bookingW2 := by
  refine ⟨by decide, by decide, by decide, by decide⟩

/-- Concrete single-conflict request: make_booking names the conflict but
appends no next-free moment, and the ledger is untouched. -/
theorem C3_make_booking_conflict_behavior_witness :
    make_booking ledgerW1 "Projector" "2025-03-15" "16:00" "18:00"
      "Chess Club" "Ana" "@ana" =
      (ledgerW1, alreadyBookedMsg "Projector" bookingW) :=
  (C3_make_booking_conflict_behavior ledgerW1 "Projector" "2025-03-15" "16:00"
    "18:00" "Chess Club" "Ana" "@ana" ⟨2025, 3, 15, 16, 0⟩ ⟨2025, 3, 15, 18, 0⟩
    { equipW with available_quantity := 1 }
    (by decide) (by decide) (by decide) (by decide)).1 bookingW (by decide)

/-! ### Identifier round-trip and running-maximum lemmas -/

theorem charDigit?_digitToChar {d : Nat} (h : d < 10) :
    charDigit? (digitToChar d) = some d := by
  interval_cases d <;> rfl

theorem digitToChar_bounds (d : Nat) :
    '0' ≤ digitToChar d ∧ digitToChar d ≤ '9' := by
  rcases d with _ | _ | _ | _ | _ | _ | _ | _ | _ | d
  · exact ⟨by decide, by decide⟩
  · exact ⟨by decide, by decide⟩
  · exact ⟨by decide, by decide⟩
  · exact ⟨by decide, by decide⟩
  · exact ⟨by decide, by decide⟩
  · exact ⟨by decide, by decide⟩
  · exact ⟨by decide, by decide⟩
  · exact ⟨by decide, by decide⟩
  · exact ⟨by decide, by decide⟩
  · change '0' ≤ '9' ∧ '9' ≤ '9'
    exact ⟨by decide, by decide⟩

theorem parseDigitsAux_append (l1 l2 : List Char) (acc : Nat) :
    parseDigitsAux acc (l1 ++ l2) =
      match parseDigitsAux acc l1 with
      | some a => parseDigitsAux a l2
      | none => none := by
  induction l1 generalizing acc with
  | nil => simp [parseDigitsAux]
  | cons c cs ih =>
    simp only [List.cons_append, parseDigitsAux]
    cases charDigit? c with
    | none => rfl
    | some d => exact ih (acc * 10 + d)

theorem toDigitsRev_eq_digits : ∀ (fuel n : Nat), n ≤ fuel →
    toDigitsRev fuel n = Nat.digits 10 n := by
  intro fuel
  induction fuel with
  | zero =>
    intro n hn
    have : n = 0 := Nat.le_zero.mp hn
    subst this
    simp [toDigitsRev]
  | succ fuel ih =>
    intro n hn
    by_cases h0 : n = 0
    · subst h0
      simp [toDigitsRev]
    · have hrec : toDigitsRev (fuel + 1) n = n % 10 :: toDigitsRev fuel (n / 10) := by
        simp [toDigitsRev, h0]
      have hdiv : n / 10 ≤ fuel := by
        have := Nat.div_lt_self (Nat.pos_of_ne_zero h0) (by norm_num : 1 < 10)
        omega
      rw [hrec, ih (n / 10) hdiv,
        Nat.digits_def' (by norm_num : 1 < 10) (Nat.pos_of_ne_zero h0)]

theorem natDigits_eq (n : Nat) : natDigits n = Nat.digits 10 n :=
  toDigitsRev_eq_digits n n (le_refl n)

theorem parseDigitsAux_bigEndian :
    ∀ (ds : List Nat), (∀ d ∈ ds, d < 10) → ∀ acc : Nat,
      parseDigitsAux acc ((ds.map digitToChar).reverse) =
        some (acc * 10 ^ ds.length + Nat.ofDigits 10 ds) := by
  intro ds
  induction ds with
  | nil => intro _ acc; simp [parseDigitsAux, Nat.ofDigits_nil]
  | cons d tl ih =>
    intro hlt acc
    have hd : d < 10 := hlt d (by simp)
    have htl : ∀ x ∈ tl, x < 10 := fun x hx => hlt x (by simp [hx])
    rw [List.map_cons, List.reverse_cons, parseDigitsAux_append, ih htl acc]
    simp only [parseDigitsAux, charDigit?_digitToChar hd]
    rw [Nat.ofDigits_cons]
    congr 1
    simp only [List.length_cons]
    ring

theorem parseDigits?_of_ne_nil {l : List Char} (h : l ≠ []) :
    parseDigits? l = parseDigitsAux 0 l := by
  cases l with
  | nil => exact absurd rfl h
  | cons c cs => rfl

theorem parseDigits?_renderNat (n : Nat) :
    parseDigits? (renderNat n).data = some n := by
  by_cases h0 : n = 0
  · subst h0
    rfl
  · have hne : Nat.digits 10 n ≠ [] := Nat.digits_ne_nil_iff_ne_zero.mpr h0
    have hlt : ∀ d ∈ Nat.digits 10 n, d < 10 :=
      fun d hd => Nat.digits_lt_base (by norm_num) hd
    have hdata : (renderNat n).data = ((Nat.digits 10 n).map digitToChar).reverse := by
      simp [renderNat, h0, natDigits_eq]
    rw [hdata, parseDigits?_of_ne_nil (by simpa using hne)]
    rw [parseDigitsAux_bigEndian (Nat.digits 10 n) hlt 0]
    simp [Nat.ofDigits_digits]

theorem renderNat_digits (n : Nat) :
    ∀ c ∈ (renderNat n).data, '0' ≤ c ∧ c ≤ '9' := by
  by_cases h0 : n = 0
  · subst h0
    intro c hc
    simp only [renderNat] at hc
    simp at hc
    subst hc
    exact ⟨by decide, by decide⟩
  · intro c hc
    have hdata : (renderNat n).data = ((Nat.digits 10 n).map digitToChar).reverse := by
      simp [renderNat, h0, natDigits_eq]
    rw [hdata, List.mem_reverse] at hc
    rcases List.mem_map.mp hc with ⟨d, _, rfl⟩
    exact digitToChar_bounds d

theorem renderNat_ne_nil (n : Nat) : (renderNat n).data ≠ [] := by
  by_cases h0 : n = 0
  · subst h0
    simp [renderNat]
  · have hne : Nat.digits 10 n ≠ [] := Nat.digits_ne_nil_iff_ne_zero.mpr h0
    have hdata : (renderNat n).data = ((Nat.digits 10 n).map digitToChar).reverse := by
      simp [renderNat, h0, natDigits_eq]
    rw [hdata]
    simpa using hne

theorem parseDigitsAux_zeros (k : Nat) :
    parseDigitsAux 0 (List.replicate k '0') = some 0 := by
  induction k with
  | zero => rfl
  | succ k ih =>
    have h0 : charDigit? '0' = some 0 := rfl
    simpa [List.replicate, parseDigitsAux, h0] using ih

theorem parseDigits?_leftPad3 (n : Nat) :
    parseDigits? (leftPad0 3 (renderNat n)).data = some n := by
  unfold leftPad0
  by_cases hlen : (renderNat n).length < 3
  · rw [if_pos hlen]
    have hdata : (String.mk (List.replicate (3 - (renderNat n).length) '0')
        ++ renderNat n).data
        = List.replicate (3 - (renderNat n).length) '0' ++ (renderNat n).data := rfl
    rw [hdata]
    have hne : List.replicate (3 - (renderNat n).length) '0' ++ (renderNat n).data ≠ [] := by
      intro hcontra
      exact renderNat_ne_nil n (List.append_eq_nil.mp hcontra).2
    rw [parseDigits?_of_ne_nil hne, parseDigitsAux_append, parseDigitsAux_zeros]
    show parseDigitsAux 0 (renderNat n).data = some n
    rw [← parseDigits?_of_ne_nil (renderNat_ne_nil n)]
    exact parseDigits?_renderNat n
  · rw [if_neg hlen]
    exact parseDigits?_renderNat n

theorem leftPad0_digits (w : Nat) (s : String)
    (h : ∀ c ∈ s.data, '0' ≤ c ∧ c ≤ '9') :
    ∀ c ∈ (leftPad0 w s).data, '0' ≤ c ∧ c ≤ '9' := by
  unfold leftPad0
  by_cases hl : s.length < w
  · rw [if_pos hl]
    intro c hc
    have hc' : c ∈ List.replicate (w - s.length) '0' ++ s.data := hc
    rcases List.mem_append.mp hc' with h1 | h1
    · have := List.eq_of_mem_replicate h1
      subst this
      exact ⟨by decide, by decide⟩
    · exact h c h1
  · rw [if_neg hl]
    exact h

theorem leftPad0_ne_nil (w : Nat) (s : String) (h : s.data ≠ []) :
    (leftPad0 w s).data ≠ [] := by
  unfold leftPad0
  by_cases hl : s.length < w
  · rw [if_pos hl]
    intro hcontra
    exact h (List.append_eq_nil.mp hcontra).2
  · rw [if_neg hl]
    exact h

theorem pyInt?_digits {l : List Char} (hne : l ≠ [])
    (hd : ∀ c ∈ l, '0' ≤ c ∧ c ≤ '9') :
    pyInt? (String.mk l) = (parseDigits? l).map (fun n => (n : Int)) := by
  cases l with
  | nil => exact absurd rfl hne
  | cons c cs =>
    have hc := hd c (by simp)
    have hc1 : ¬ c = '-' := by
      rintro rfl
      exact absurd hc (by decide)
    have hc2 : ¬ c = '+' := by
      rintro rfl
      exact absurd hc (by decide)
    have hred : pyInt? (String.mk (c :: cs)) =
        (if c = '-' then (parseDigits? cs).map (fun n => -(n : Int))
         else if c = '+' then (parseDigits? cs).map (fun n => (n : Int))
         else (parseDigits? (c :: cs)).map (fun n => (n : Int))) := rfl
    rw [hred, if_neg hc1, if_neg hc2]

theorem maxStep_ge (m : Int) (b : Booking) : m ≤ maxStep m b := by
  unfold maxStep
  cases parseSuffix b.booking_id with
  | none => exact le_refl m
  | some n =>
    dsimp only
    split <;> omega

theorem foldl_maxStep_ge : ∀ (l : List Booking) (m : Int), m ≤ l.foldl maxStep m := by
  intro l
  induction l with
  | nil => intro m; exact le_refl m
  | cons b t ih =>
    intro m
    exact le_trans (maxStep_ge m b) (ih (maxStep m b))

theorem foldl_maxStep_bound :
    ∀ (l : List Booking) (m : Int) (b : Booking) (n : Int),
      b ∈ l → parseSuffix b.booking_id = some n → n ≤ l.foldl maxStep m := by
  intro l
  induction l with
  | nil =>
    intro m b n hb
    cases hb
  | cons a t ih =>
    intro m b n hb hp
    rcases List.mem_cons.mp hb with rfl | hb
    · have h1 : n ≤ maxStep m b := by
        unfold maxStep
        rw [hp]
        dsimp only
        split <;> omega
      exact le_trans h1 (foldl_maxStep_ge t (maxStep m b))
    · exact ih (maxStep m a) b n hb hp

theorem maxParsed_nonneg (st : Ledger) : 0 ≤ maxParsed st :=
  foldl_maxStep_ge st.bookings 0

theorem maxParsed_ge {st : Ledger} {b : Booking} {n : Int} (hb : b ∈ st.bookings)
    (hp : parseSuffix b.booking_id = some n) : n ≤ maxParsed st :=
  foldl_maxStep_bound st.bookings 0 b n hb hp

theorem parseSuffix_generate (st : Ledger) :
    parseSuffix (generate_booking_id st) = some (maxParsed st + 1) := by
  have hpos : 0 ≤ maxParsed st := maxParsed_nonneg st
  unfold parseSuffix generate_booking_id
  have hdata : ("B" ++ format03d (maxParsed st + 1)).data
      = 'B' :: (format03d (maxParsed st + 1)).data := rfl
  rw [hdata]
  simp only [List.tail_cons]
  have hneg : ¬ (maxParsed st + 1 < 0) := by omega
  unfold format03d
  rw [if_neg hneg]
  have hdig := leftPad0_digits 3 (renderNat (maxParsed st + 1).toNat)
    (renderNat_digits (maxParsed st + 1).toNat)
  have hne := leftPad0_ne_nil 3 (renderNat (maxParsed st + 1).toNat)
    (renderNat_ne_nil (maxParsed st + 1).toNat)
  have hmk : String.mk (leftPad0 3 (renderNat (maxParsed st + 1).toNat)).data
      = leftPad0 3 (renderNat (maxParsed st + 1).toNat) := rfl
  rw [← hmk, pyInt?_digits hne hdig, parseDigits?_leftPad3]
  simp [Int.toNat_of_nonneg (show (0 : Int) ≤ maxParsed st + 1 by omega)]

theorem generate_fresh (st : Ledger) :
    ∀ b ∈ st.bookings, b.booking_id ≠ generate_booking_id st := by
  intro b hb heq
  have h1 : parseSuffix b.booking_id = some (maxParsed st + 1) := by
    rw [heq]
    exact parseSuffix_generate st
  have h2 := maxParsed_ge hb h1
  omega

theorem foldl_maxStep_updateWhere (p : Booking → Bool) (ns : String) :
    ∀ (l : List Booking) (m : Int),
      (updateWhere p (setStatus ns) l).foldl maxStep m = l.foldl maxStep m := by
  intro l
  induction l with
  | nil => intro m; rfl
  | cons a t ih =>
    intro m
    simp only [updateWhere]
    by_cases hp : p a
    · rw [if_pos hp]
      simp only [List.foldl_cons]
      have hms : maxStep m (setStatus ns a) = maxStep m a := rfl
      rw [hms, ih]
    · rw [if_neg hp]
      simp only [List.foldl_cons]
      exact ih (maxStep m a)

theorem maxParsed_make_of_ne (st : Ledger) (en d s e club by_ tu : String)
    (h : (make_booking st en d s e club by_ tu).1 ≠ st) :
    maxParsed (make_booking st en d s e club by_ tu).1 = maxParsed st + 1 := by
  rcases make_booking_fst_cases st en d s e club by_ tu with
    heq | ⟨sd, ed, equipment, hp, hk, hfe, hav, hc, heq⟩
  · exact absurd heq h
  rw [heq]
  have hps : parseSuffix (newBooking st equipment club by_ tu sd ed).booking_id
      = some (maxParsed st + 1) := parseSuffix_generate st
  show (makeSuccessState st en (newBooking st equipment club by_ tu sd ed)).bookings.foldl
      maxStep 0 = maxParsed st + 1
  have hbk : (makeSuccessState st en (newBooking st equipment club by_ tu sd ed)).bookings
      = st.bookings ++ [newBooking st equipment club by_ tu sd ed] := rfl
  rw [hbk, List.foldl_append]
  simp only [List.foldl_cons, List.foldl_nil]
  show maxStep (maxParsed st) (newBooking st equipment club by_ tu sd ed) = maxParsed st + 1
  unfold maxStep
  rw [hps]
  dsimp only
  rw [if_pos (by omega)]

theorem maxParsed_applyOp (st : Ledger) (op : Op) :
    maxParsed st ≤ maxParsed (applyOp st op).1 := by
  cases op with
  | make en d s e club by_ tu =>
    by_cases h : (make_booking st en d s e club by_ tu).1 = st
    · simp [applyOp, h]
    · have hh := maxParsed_make_of_ne st en d s e club by_ tu h
      simp only [applyOp]
      omega
  | cancel bid =>
    rcases cancel_booking_fst_cases st bid with heq | ⟨b, hfb, hs, hcase⟩
    · simp [applyOp, heq]
    · rcases hcase with ⟨-, heq⟩ | ⟨eq2, -, heq⟩ <;>
        (simp only [applyOp]
         rw [heq]
         show maxParsed st ≤ (terminalSuccessState st bid b "cancelled" _).bookings.foldl maxStep 0
         rw [show (terminalSuccessState st bid b "cancelled" _).bookings
             = updateWhere (bookingIdMatches bid) (setStatus "cancelled") st.bookings from rfl]
         rw [foldl_maxStep_updateWhere]
         exact le_refl _)
  | ret bid =>
    rcases return_equipment_fst_cases st bid with heq | ⟨b, hfb, hs, hcase⟩
    · simp [applyOp, heq]
    · rcases hcase with ⟨-, heq⟩ | ⟨eq2, -, heq⟩ <;>
        (simp only [applyOp]
         rw [heq]
         show maxParsed st ≤ (terminalSuccessState st bid b "returned" _).bookings.foldl maxStep 0
         rw [show (terminalSuccessState st bid b "returned" _).bookings
             = updateWhere (bookingIdMatches bid) (setStatus "returned") st.bookings from rfl]
         rw [foldl_maxStep_updateWhere]
         exact le_refl _)

theorem maxParsed_runOps (ops : List Op) :
    ∀ st : Ledger, maxParsed st ≤ maxParsed (runOps st ops) := by
  induction ops with
  | nil => intro st; exact le_refl _
  | cons op t ih =>
    intro st
    exact le_trans (maxParsed_applyOp st op) (ih (applyOp st op).1)

/-- C5: identifier assignment folds over every reservation's identifier
regardless of status, parsing the suffix after the first character and
skipping parse failures, and emits the running maximum plus one with the
fixed zero-padded width; the fold never decreases across operations, a
generated identifier parses back to maximum-plus-one and collides with no
existing identifier, the first booking of an empty ledger gets "B001", and
identifiers assigned by two successive successful make_booking calls —
with any operations, cancellations included, in between — are strictly
increasing and never reused. -/
theorem C5_identifier_assignment :
    (∀ st : Ledger, generate_booking_id st = "B" ++ format03d (maxParsed st + 1)) ∧
    (∀ eqs : List Equipment,
      generate_booking_id { equipment := eqs, bookings := [] } = "B001") ∧
    (∀ st : Ledger, parseSuffix (generate_booking_id st) = some (maxParsed st + 1) ∧
      ∀ b ∈ st.bookings, b.booking_id ≠ generate_booking_id st) ∧
    (∀ (st : Ledger) (ops : List Op), maxParsed st ≤ maxParsed (runOps st ops)) ∧
    (∀ (st : Ledger) (en d s e club by_ tu en2 d2 s2 e2 club2 by2 tu2 : String)
        (ops : List Op),
      (make_booking st en d s e club by_ tu).1 ≠ st →
      (make_booking (runOps (make_booking st en d s e club by_ tu).1 ops)
          en2 d2 s2 e2 club2 by2 tu2).1 ≠
        runOps (make_booking st en d s e club by_ tu).1 ops →
      ∃ n1 n2 : Int,
        parseSuffix (generate_booking_id st) = some n1 ∧
        parseSuffix (generate_booking_id
          (runOps (make_booking st en d s e club by_ tu).1 ops)) = some n2 ∧
        n1 < n2 ∧
        generate_booking_id st ≠
          generate_booking_id (runOps (make_booking st en d s e club by_ tu).1 ops)) := by
  refine ⟨fun st => rfl, fun eqs => rfl, ?_, ?_, ?_⟩
  · intro st
    exact ⟨parseSuffix_generate st, generate_fresh st⟩
  · intro st ops
    exact maxParsed_runOps ops st
  · intro st en d s e club by_ tu en2 d2 s2 e2 club2 by2 tu2 ops h1 h2
    refine ⟨maxParsed st + 1,
      maxParsed (runOps (make_booking st en d s e club by_ tu).1 ops) + 1,
      parseSuffix_generate st, parseSuffix_generate _, ?_, ?_⟩
    · have ha := maxParsed_make_of_ne st en d s e club by_ tu h1
      have hb := maxParsed_runOps ops (make_booking st en d s e club by_ tu).1
      omega
    · intro heq
      have ha := maxParsed_make_of_ne st en d s e club by_ tu h1
      have hb := maxParsed_runOps ops (make_booking st en d s e club by_ tu).1
      have hg1 := parseSuffix_generate st
      have hg2 := parseSuffix_generate
        (runOps (make_booking st en d s e club by_ tu).1 ops)
      rw [heq, hg2] at hg1
      injection hg1 with hg1
      omega

/-- Concrete run: the empty ledger's first identifier is "B001", and after a
successful booking, a second booking, a cancellation of the second, the
next assigned identifier differs from every earlier one. -/
theorem C5_identifier_assignment_witness :
    generate_booking_id ledgerW = "B001" ∧
    generate_booking_id ledgerW ≠
      generate_booking_id (runOps
        (make_booking ledgerW "Projector" "2025-03-15" "10:00" "11:00"
          "Club A" "Amy" "@a").1
        [Op.make "Projector" "2025-03-15" "11:00" "12:00" "Club B" "Bo" "@b",
         Op.cancel "B002"]) := by
  constructor
  · exact C5_identifier_assignment.2.1 [equipW]
  · obtain ⟨n1, n2, hp1, hp2, hlt, hne⟩ :=
      C5_identifier_assignment.2.2.2.2 ledgerW "Projector" "2025-03-15" "10:00"
        "11:00" "Club A" "Amy" "@a" "Projector" "2025-03-15" "13:00" "14:00"
        "Club C" "Cy" "@c"
        [Op.make "Projector" "2025-03-15" "11:00" "12:00" "Club B" "Bo" "@b",
         Op.cancel "B002"]
        (by decide) (by decide)
    exact hne

/-- C8: ToolExecutor.execute yields a textual result for every tool name
and argument map (it is a total function of the embedding); a name outside
the seven-operation catalogue returns the unknown-tool reply with the
ledger untouched and no engine function evaluated; every recognized name
dispatches to the corresponding engine function, each declared argument
read from the map with the empty string as the default for a missing
key. -/
theorem C8_tool_executor (st : Ledger) (args : List (String × String)) :
    (∀ name : String,
      name ≠ "list_equipment" → name ≠ "check_availability" →
      name ≠ "make_booking" → name ≠ "get_bookings" → name ≠ "cancel_booking" →
      name ≠ "return_equipment" → name ≠ "get_active_bookings" →
      ToolExecutor.execute st name args =
        (st, "Unknown tool '" ++ name ++ "'. No action was taken.")) ∧
    ToolExecutor.execute st "list_equipment" args = (st, list_equipment st) ∧
    ToolExecutor.execute st "check_availability" args =
      (st, check_availability st (getArg args "equipment_name") (getArg args "date")
        (getArg args "start_time") (getArg args "end_time")) ∧
    ToolExecutor.execute st "make_booking" args =
      make_booking st (getArg args "equipment_name") (getArg args "date")
        (getArg args "start_time") (getArg args "end_time") (getArg args "club_name")
        (getArg args "booked_by") (getArg args "telegram_username") ∧
    ToolExecutor.execute st "get_bookings" args =
      (st, get_bookings st (getArg args "club_name")) ∧
    ToolExecutor.execute st "cancel_booking" args =
      cancel_booking st (getArg args "booking_id") ∧
    ToolExecutor.execute st "return_equipment" args =
      return_equipment st (getArg args "booking_id") ∧
    ToolExecutor.execute st "get_active_bookings" args = (st, get_active_bookings st) ∧
    (∀ k : String, args.lookup k = none → getArg args k = "") := by
  refine ⟨?_, rfl, rfl, rfl, rfl, rfl, rfl, rfl, ?_⟩
  · intro name h1 h2 h3 h4 h5 h6 h7
    simp [ToolExecutor.execute, h1, h2, h3, h4, h5, h6, h7]
  · intro k hk
    simp [getArg, hk]

/-- Concrete unknown and recognized dispatches, with an empty argument
map. -/
theorem C8_tool_executor_witness :
    ToolExecutor.execute ledgerW "frobnicate" [] =
      (ledgerW, "Unknown tool 'frobnicate'. No action was taken.") ∧
    ToolExecutor.execute ledgerW1 "cancel_booking" [] = cancel_booking ledgerW1 "" :=
  ⟨(C8_tool_executor ledgerW []).1 "frobnicate" (by decide) (by decide) (by decide)
      (by decide) (by decide) (by decide) (by decide),
   (C8_tool_executor ledgerW1 []).2.2.2.2.2.1⟩
